import Mathlib

/-!
Verification of the cloudtg core (src-tauri) against its specification.

Strings are modelled as lists of characters (`Str`).  Each definition below
is a shallow embedding of the corresponding Rust item, with its source
location given in the doc comment.  Database tables are lists of row
structures; `id` columns are primary keys in the migrations, so per-id
updates are modelled as per-row updates.  Transport calls are modelled by
oracle structures holding each call's result.
-/

set_option maxRecDepth 4000

abbrev Str := List Char

/-- Model of Rust `char::is_whitespace` (the Unicode White_Space set),
used by `str::split_whitespace` and `str::trim`. -/
def rustWs (c : Char) : Bool :=
  let n := c.toNat
  n == 32 || n == 9 || n == 10 || n == 11 || n == 12 || n == 13 ||
  n == 0x85 || n == 0xA0 || n == 0x1680 ||
  n == 0x2000 || n == 0x2001 || n == 0x2002 || n == 0x2003 || n == 0x2004 ||
  n == 0x2005 || n == 0x2006 || n == 0x2007 || n == 0x2008 || n == 0x2009 ||
  n == 0x200A || n == 0x2028 || n == 0x2029 || n == 0x202F || n == 0x205F ||
  n == 0x3000

/-- The NUL character used by `unescape_spaces` as its placeholder. -/
def NUL : Char := Char.ofNat 0

/-- Rust `str::replace(pat, rep)` with a one-character pattern
(`fsmeta/mod.rs` uses it in `escape_spaces`/`unescape_spaces`). -/
def replaceCh (pat : Char) (rep : Str) (s : Str) : Str :=
  s.flatMap (fun c => if c = pat then rep else [c])

/-- Rust `str::replace("__", rep)`: leftmost, non-overlapping replacement
of the two-character pattern `__` (`fsmeta/mod.rs`, `unescape_spaces`). -/
def replaceUU (rep : Str) : Str → Str
  | c1 :: c2 :: rest =>
      if c1 = '_' ∧ c2 = '_' then rep ++ replaceUU rep rest
      else c1 :: replaceUU rep (c2 :: rest)
  | l => l

/-- `fsmeta/mod.rs` lines 74-76: spaces to underscores, underscores doubled. -/
def escape_spaces (s : Str) : Str :=
  replaceCh ' ' ['_'] (replaceCh '_' ['_', '_'] s)

/-- `fsmeta/mod.rs` lines 77-82: `"__" -> NUL`, `'_' -> ' '`, `NUL -> '_'`. -/
def unescape_spaces (s : Str) : Str :=
  replaceCh NUL ['_'] (replaceCh '_' [' '] (replaceUU [NUL] s))

/-- Accumulator-based model of Rust `str::split_whitespace`. -/
def splitWsAux : Str → Str → List Str
  | acc, [] => if acc.isEmpty then [] else [acc.reverse]
  | acc, c :: rest =>
      if rustWs c then
        (if acc.isEmpty then splitWsAux [] rest
         else acc.reverse :: splitWsAux [] rest)
      else splitWsAux (c :: acc) rest

/-- Rust `str::split_whitespace`: whitespace-separated tokens, no empties. -/
def splitWhitespace (s : Str) : List Str := splitWsAux [] s

/-- Helper for `splitOnceEq`. -/
def splitOnceAux : Str → Str → Option (Str × Str)
  | _, [] => none
  | acc, c :: rest =>
      if c = '=' then some (acc.reverse, rest) else splitOnceAux (c :: acc) rest

/-- Rust `str::split_once('=')`: split a token at its first `=`. -/
def splitOnceEq (t : Str) : Option (Str × Str) := splitOnceAux [] t

/-- `fsmeta/mod.rs` lines 28-34 (`kv_map`): whitespace tokens split at the
first `=`; collecting into a `HashMap` keeps the last binding of a key. -/
def kvPairs (s : Str) : List (Str × Str) :=
  (splitWhitespace s).filterMap splitOnceEq

/-- `HashMap::get` on the collected `kv_map` (`map.get(k)`): last binding wins. -/
def kvGet (s : Str) (k : Str) : Option Str :=
  ((kvPairs s).reverse.find? (fun p => p.1 == k)).map (·.2)

/-- Boolean list-prefix test (`Str` version of slice prefix matching). -/
def isPre : Str → Str → Bool
  | [], _ => true
  | _ :: _, [] => false
  | a :: l1, b :: l2 => a == b && isPre l1 l2

/-- Rust `str::contains(pat)`: `pat` occurs as a contiguous substring. -/
def containsSub (pat : Str) : Str → Bool
  | [] => pat.isEmpty
  | c :: rest => isPre pat (c :: rest) || containsSub pat rest

/-- `fsmeta/mod.rs` line 6: file metadata record. -/
structure FileMeta where
  dir_id : Str
  file_id : Str
  name : Str
  hash_short : Str
deriving DecidableEq, Repr

/-- `fsmeta/mod.rs` line 14: directory metadata record. -/
structure DirMeta where
  dir_id : Str
  parent_id : Str
  name : Str
deriving DecidableEq, Repr

/-- `fsmeta/mod.rs` line 21: decoding errors. -/
inductive MetaError where
  | NotCloudtg : MetaError
  | Missing : Str → MetaError
deriving DecidableEq, Repr

/-- `fsmeta/mod.rs` line 3. -/
def TAG_PREFIX : Str := "#ocltg #v1".toList

/-- `fsmeta/mod.rs` lines 36-40 (`make_file_caption`). -/
def make_file_caption (m : FileMeta) : Str :=
  TAG_PREFIX ++ " #file d=".toList ++ m.dir_id ++ " f=".toList ++ m.file_id ++
    " n=".toList ++ escape_spaces m.name ++ " h=".toList ++ m.hash_short

/-- `fsmeta/mod.rs` lines 42-46 (`make_dir_message`). -/
def make_dir_message (m : DirMeta) : Str :=
  TAG_PREFIX ++ " #dir d=".toList ++ m.dir_id ++ " p=".toList ++ m.parent_id ++
    " name=".toList ++ escape_spaces m.name

/-- `fsmeta/mod.rs` lines 48-59 (`parse_file_caption`). -/
def parse_file_caption (caption : Str) : Except MetaError FileMeta :=
  if ¬ (containsSub "#ocltg".toList caption ∧ containsSub "#v1".toList caption ∧
        containsSub "#file".toList caption) then
    .error .NotCloudtg
  else
    match kvGet caption ['d'], kvGet caption ['f'], kvGet caption ['n'],
          kvGet caption ['h'] with
    | none, _, _, _ => .error (.Missing ['d'])
    | some _, none, _, _ => .error (.Missing ['f'])
    | some _, some _, none, _ => .error (.Missing ['n'])
    | some _, some _, some _, none => .error (.Missing ['h'])
    | some d, some f, some n, some h =>
        .ok { dir_id := d, file_id := f, name := unescape_spaces n, hash_short := h }

/-- `fsmeta/mod.rs` lines 61-71 (`parse_dir_message`). -/
def parse_dir_message (text : Str) : Except MetaError DirMeta :=
  if ¬ (containsSub "#ocltg".toList text ∧ containsSub "#v1".toList text ∧
        containsSub "#dir".toList text) then
    .error .NotCloudtg
  else
    match kvGet text ['d'], kvGet text ['p'], kvGet text "name".toList with
    | none, _, _ => .error (.Missing ['d'])
    | some _, none, _ => .error (.Missing ['p'])
    | some _, some _, none => .error (.Missing "name".toList)
    | some d, some p, some n =>
        .ok { dir_id := d, parent_id := p, name := unescape_spaces n }

instance {α β : Type} [DecidableEq α] [DecidableEq β] :
    DecidableEq (Except α β) := fun a b =>
  match a, b with
  | .ok x, .ok y =>
      if h : x = y then .isTrue (by rw [h]) else .isFalse (by simp [h])
  | .error x, .error y =>
      if h : x = y then .isTrue (by rw [h]) else .isFalse (by simp [h])
  | .ok _, .error _ => .isFalse (by simp)
  | .error _, .ok _ => .isFalse (by simp)

example :
    parse_dir_message (make_dir_message
      { dir_id := "01HCCC".toList, parent_id := "ROOT".toList,
        name := "My Projects".toList }) =
    .ok { dir_id := "01HCCC".toList, parent_id := "ROOT".toList,
          name := "My Projects".toList } := by decide

example :
    parse_file_caption (make_file_caption
      { dir_id := "01HAAA".toList, file_id := "01HBBB".toList,
        name := "report final_v2.pdf".toList, hash_short := "1a2b3c4d".toList }) =
    .ok { dir_id := "01HAAA".toList, file_id := "01HBBB".toList,
          name := "report final_v2.pdf".toList, hash_short := "1a2b3c4d".toList } := by
  decide

example :
    parse_dir_message (make_dir_message
      { dir_id := "01H".toList, parent_id := "ROOT".toList, name := "a  b".toList }) =
    .ok { dir_id := "01H".toList, parent_id := "ROOT".toList, name := "a_b".toList } := by
  decide

/-! ### Codec round-trip analysis (claim C1) -/

/-- Character-level view of `escape_spaces` (underscores doubled, spaces to
underscores, other characters kept). -/
def escCh (c : Char) : Str :=
  if c = '_' then ['_', '_'] else if c = ' ' then ['_'] else [c]

theorem replaceCh_cons (pat : Char) (rep : Str) (c : Char) (t : Str) :
    replaceCh pat rep (c :: t) =
      (if c = pat then rep else [c]) ++ replaceCh pat rep t := by
  simp [replaceCh]

theorem replaceCh_append (pat : Char) (rep : Str) (a b : Str) :
    replaceCh pat rep (a ++ b) = replaceCh pat rep a ++ replaceCh pat rep b := by
  simp [replaceCh]

theorem escape_spaces_eq_flat (s : Str) : escape_spaces s = s.flatMap escCh := by
  induction s with
  | nil => rfl
  | cons c t ih =>
      by_cases hu : c = '_'
      · subst hu
        simp only [escape_spaces, replaceCh_cons, replaceCh_append] at *
        simp only [List.flatMap_cons]
        rw [← ih]
        simp [escape_spaces, escCh, replaceCh]
      · by_cases hs : c = ' '
        · subst hs
          simp only [escape_spaces, replaceCh_cons, replaceCh_append] at *
          simp only [List.flatMap_cons]
          rw [← ih]
          simp [escape_spaces, escCh, replaceCh]
        · simp only [escape_spaces, replaceCh_cons, replaceCh_append] at *
          simp only [List.flatMap_cons]
          rw [← ih]
          simp [escape_spaces, escCh, replaceCh, hu, hs]

theorem replaceUU_pair (rep t : Str) :
    replaceUU rep ('_' :: '_' :: t) = rep ++ replaceUU rep t := by
  simp [replaceUU]

theorem replaceUU_single (rep : Str) (c : Char) : replaceUU rep [c] = [c] := by
  rfl

theorem replaceUU_cons_pair_ne (rep : Str) (c1 c2 : Char) (t : Str)
    (h : ¬ (c1 = '_' ∧ c2 = '_')) :
    replaceUU rep (c1 :: c2 :: t) = c1 :: replaceUU rep (c2 :: t) := by
  simp [replaceUU, h]

theorem replaceUU_cons_ne (rep : Str) (c : Char) (t : Str) (h : c ≠ '_') :
    replaceUU rep (c :: t) = c :: replaceUU rep t := by
  cases t with
  | nil => rfl
  | cons d t' => exact replaceUU_cons_pair_ne rep c d t' (by simp [h])

/-- Adjacency condition under which decoding inverts encoding: no space is
immediately followed by another space or by an underscore. -/
def nameChainOk : Str → Bool
  | c1 :: c2 :: rest =>
      !(c1 == ' ' && (c2 == ' ' || c2 == '_')) && nameChainOk (c2 :: rest)
  | _ => true

/-- A name the codec round-trips: its only whitespace is the plain space,
it contains no NUL, and `nameChainOk` holds. -/
def goodName (s : Str) : Bool :=
  s.all (fun c => (!rustWs c || c == ' ') && c != NUL) && nameChainOk s

/-- An id/hash field value free of whitespace (as every ULID, `"ROOT"` and
8-hex-char hash is). -/
def goodTok (s : Str) : Bool := s.all (fun c => !rustWs c)

theorem goodName_tail (c : Char) (t : Str) (h : goodName (c :: t) = true) :
    goodName t = true := by
  simp only [goodName, List.all_cons, Bool.and_eq_true] at h ⊢
  refine ⟨h.1.2, ?_⟩
  rcases h with ⟨-, hc⟩
  cases t with
  | nil => rfl
  | cons d r =>
      simp only [nameChainOk, Bool.and_eq_true] at hc
      exact hc.2

theorem goodName_space_head (d : Char) (t : Str)
    (h : goodName (' ' :: d :: t) = true) : d ≠ ' ' ∧ d ≠ '_' := by
  simp only [goodName, nameChainOk, Bool.and_eq_true, Bool.not_eq_true',
    Bool.and_eq_false_iff, Bool.or_eq_false_iff] at h
  rcases h with ⟨-, hc, -⟩
  rcases hc with hc | hc
  · simp at hc
  · constructor
    · intro he; subst he; simp at hc
    · intro he; subst he; simp at hc

theorem goodName_head (c : Char) (t : Str) (h : goodName (c :: t) = true) :
    (!rustWs c || c == ' ') = true ∧ (c != NUL) = true := by
  simp only [goodName, List.all_cons, Bool.and_eq_true] at h
  exact h.1.1

theorem unescape_escape (s : Str) (h : goodName s = true) :
    unescape_spaces (escape_spaces s) = s := by
  rw [escape_spaces_eq_flat]
  induction s with
  | nil => rfl
  | cons c t ih =>
      have hgt : goodName t = true := goodName_tail c t h
      have hrest := ih hgt
      by_cases hu : c = '_'
      · subst hu
        simp only [List.flatMap_cons]
        show unescape_spaces ('_' :: '_' :: t.flatMap escCh) = '_' :: t
        unfold unescape_spaces at hrest ⊢
        rw [replaceUU_pair, replaceCh_append, replaceCh_append,
          show replaceCh NUL ['_'] (replaceCh '_' [' '] [NUL]) = ['_'] from rfl,
          List.singleton_append, hrest]
      · by_cases hsp : c = ' '
        · subst hsp
          simp only [List.flatMap_cons]
          show unescape_spaces ('_' :: t.flatMap escCh) = ' ' :: t
          unfold unescape_spaces at hrest ⊢
          have hstep : replaceUU [NUL] ('_' :: t.flatMap escCh) =
              '_' :: replaceUU [NUL] (t.flatMap escCh) := by
            cases t with
            | nil => rfl
            | cons d r =>
                have hd := goodName_space_head d r h
                have hflat : (d :: r).flatMap escCh = d :: r.flatMap escCh := by
                  simp only [List.flatMap_cons]
                  rw [show escCh d = [d] by simp [escCh, hd.1, hd.2]]
                  rfl
                rw [hflat]
                exact replaceUU_cons_pair_ne [NUL] '_' d _ (by simp [hd.2])
          rw [hstep, replaceCh_cons, if_pos rfl, replaceCh_append,
            show replaceCh NUL ['_'] [' '] = [' '] from rfl,
            List.singleton_append, hrest]
        · have hN : c ≠ NUL := by
            have := (goodName_head c t h).2
            simpa using this
          simp only [List.flatMap_cons]
          rw [show escCh c = [c] by simp [escCh, hu, hsp]]
          show unescape_spaces (c :: t.flatMap escCh) = c :: t
          unfold unescape_spaces at hrest ⊢
          rw [replaceUU_cons_ne [NUL] c _ hu, replaceCh_cons, if_neg hu,
            replaceCh_append, replaceCh_cons, if_neg hN,
            show replaceCh NUL ['_'] ([] : Str) = [] from rfl, List.append_nil,
            List.singleton_append, hrest]

theorem splitWsAux_token (t : Str) (ht : ∀ c ∈ t, rustWs c = false) :
    ∀ acc s, splitWsAux acc (t ++ s) = splitWsAux (t.reverse ++ acc) s := by
  induction t with
  | nil => intro acc s; simp
  | cons c t' ih =>
      intro acc s
      have hc : rustWs c = false := ht c (by simp)
      have ht' : ∀ x ∈ t', rustWs x = false := fun x hx => ht x (by simp [hx])
      simp only [List.cons_append, splitWsAux, hc, Bool.false_eq_true, if_false,
        List.append_eq]
      rw [ih ht' (c :: acc) s]
      simp [List.append_assoc]

theorem splitWsAux_space (acc s : Str) :
    splitWsAux acc (' ' :: s) =
      if acc.isEmpty then splitWsAux [] s
      else acc.reverse :: splitWsAux [] s := by
  have h : rustWs ' ' = true := by decide
  simp [splitWsAux, h]

theorem splitWs_tok_sp (t r : Str) (ht : ∀ c ∈ t, rustWs c = false)
    (hne : t ≠ []) : splitWsAux [] (t ++ ' ' :: r) = t :: splitWsAux [] r := by
  rw [splitWsAux_token t ht [] (' ' :: r), List.append_nil, splitWsAux_space]
  have : t.reverse.isEmpty = false := by
    cases t with
    | nil => exact absurd rfl hne
    | cons c t' => simp [List.isEmpty_iff]
  rw [this]
  simp

theorem splitWs_tok_end (t : Str) (ht : ∀ c ∈ t, rustWs c = false)
    (hne : t ≠ []) : splitWsAux [] t = [t] := by
  have := splitWsAux_token t ht [] []
  rw [List.append_nil, List.append_nil] at this
  rw [this]
  have he : t.reverse.isEmpty = false := by
    cases t with
    | nil => exact absurd rfl hne
    | cons c t' => simp [List.isEmpty_iff]
  simp [splitWsAux, he]

theorem goodTok_chars (t : Str) (h : goodTok t = true) :
    ∀ c ∈ t, rustWs c = false := by
  intro c hc
  simp only [goodTok, List.all_eq_true] at h
  have := h c hc
  simpa using this

theorem escape_spaces_ws_free (s : Str) (h : goodName s = true) :
    ∀ c ∈ escape_spaces s, rustWs c = false := by
  rw [escape_spaces_eq_flat]
  intro c hc
  rw [List.mem_flatMap] at hc
  obtain ⟨a, ha, hca⟩ := hc
  have hach : (!rustWs a || a == ' ') = true := by
    simp only [goodName, Bool.and_eq_true, List.all_eq_true] at h
    exact (h.1 a ha).1
  by_cases hau : a = '_'
  · subst hau
    simp only [escCh, if_pos rfl] at hca
    simp at hca
    rw [hca]; decide
  · by_cases hasp : a = ' '
    · subst hasp
      simp [escCh] at hca
      rw [hca]; decide
    · rw [show escCh a = [a] by simp [escCh, hau, hasp]] at hca
      simp at hca
      subst hca
      rcases Bool.or_eq_true _ _ |>.mp hach with h1 | h1
      · simpa using h1
      · exact absurd (by simpa using h1) hasp

theorem wsfree_append (a b : Str) (ha : ∀ c ∈ a, rustWs c = false)
    (hb : ∀ c ∈ b, rustWs c = false) : ∀ c ∈ a ++ b, rustWs c = false := by
  intro c hc
  rcases List.mem_append.mp hc with h | h
  · exact ha c h
  · exact hb c h

theorem isPre_append (p : Str) : ∀ a b : Str, isPre p a = true →
    isPre p (a ++ b) = true := by
  induction p with
  | nil => intro a b _; rfl
  | cons c p' ih =>
      intro a b h
      cases a with
      | nil => simp [isPre] at h
      | cons d a' =>
          simp only [isPre, Bool.and_eq_true] at h
          simp only [List.cons_append, isPre, Bool.and_eq_true]
          exact ⟨h.1, ih a' b h.2⟩

theorem containsSub_append_l (p a b : Str) (h : containsSub p a = true) :
    containsSub p (a ++ b) = true := by
  induction a with
  | nil =>
      simp only [containsSub] at h
      have : p = [] := by simpa using h
      subst this
      cases b with
      | nil => rfl
      | cons c r => simp [containsSub, isPre]
  | cons c a' ih =>
      simp only [containsSub, Bool.or_eq_true] at h
      rcases h with h | h
      · have := isPre_append p (c :: a') b h
        simp only [List.cons_append, containsSub, Bool.or_eq_true] at this ⊢
        left
        simpa using this
      · simp only [List.cons_append, containsSub, Bool.or_eq_true]
        right
        exact ih h

theorem make_file_caption_shape (m : FileMeta) :
    make_file_caption m =
      "#ocltg".toList ++ ' ' :: ("#v1".toList ++ ' ' :: ("#file".toList ++ ' ' ::
        (("d=".toList ++ m.dir_id) ++ ' ' :: (("f=".toList ++ m.file_id) ++ ' ' ::
        (("n=".toList ++ escape_spaces m.name) ++ ' ' ::
        ("h=".toList ++ m.hash_short)))))) := by
  simp only [make_file_caption, TAG_PREFIX, List.append_assoc, List.cons_append]
  rfl

theorem make_dir_message_shape (m : DirMeta) :
    make_dir_message m =
      "#ocltg".toList ++ ' ' :: ("#v1".toList ++ ' ' :: ("#dir".toList ++ ' ' ::
        (("d=".toList ++ m.dir_id) ++ ' ' :: (("p=".toList ++ m.parent_id) ++ ' ' ::
        ("name=".toList ++ escape_spaces m.name))))) := by
  simp only [make_dir_message, TAG_PREFIX, List.append_assoc, List.cons_append]
  rfl

theorem split_file_caption (m : FileMeta)
    (hd : ∀ c ∈ m.dir_id, rustWs c = false)
    (hf : ∀ c ∈ m.file_id, rustWs c = false)
    (hh : ∀ c ∈ m.hash_short, rustWs c = false)
    (hn : ∀ c ∈ escape_spaces m.name, rustWs c = false) :
    splitWhitespace (make_file_caption m) =
      ["#ocltg".toList, "#v1".toList, "#file".toList,
       "d=".toList ++ m.dir_id, "f=".toList ++ m.file_id,
       "n=".toList ++ escape_spaces m.name, "h=".toList ++ m.hash_short] := by
  rw [splitWhitespace, make_file_caption_shape]
  rw [splitWs_tok_sp "#ocltg".toList _ (by decide) (by decide)]
  rw [splitWs_tok_sp "#v1".toList _ (by decide) (by decide)]
  rw [splitWs_tok_sp "#file".toList _ (by decide) (by decide)]
  rw [splitWs_tok_sp ("d=".toList ++ m.dir_id) _
    (wsfree_append _ _ (by decide) hd) (by simp)]
  rw [splitWs_tok_sp ("f=".toList ++ m.file_id) _
    (wsfree_append _ _ (by decide) hf) (by simp)]
  rw [splitWs_tok_sp ("n=".toList ++ escape_spaces m.name) _
    (wsfree_append _ _ (by decide) hn) (by simp)]
  rw [splitWs_tok_end ("h=".toList ++ m.hash_short)
    (wsfree_append _ _ (by decide) hh) (by simp)]

theorem split_dir_message (m : DirMeta)
    (hd : ∀ c ∈ m.dir_id, rustWs c = false)
    (hp : ∀ c ∈ m.parent_id, rustWs c = false)
    (hn : ∀ c ∈ escape_spaces m.name, rustWs c = false) :
    splitWhitespace (make_dir_message m) =
      ["#ocltg".toList, "#v1".toList, "#dir".toList,
       "d=".toList ++ m.dir_id, "p=".toList ++ m.parent_id,
       "name=".toList ++ escape_spaces m.name] := by
  rw [splitWhitespace, make_dir_message_shape]
  rw [splitWs_tok_sp "#ocltg".toList _ (by decide) (by decide)]
  rw [splitWs_tok_sp "#v1".toList _ (by decide) (by decide)]
  rw [splitWs_tok_sp "#dir".toList _ (by decide) (by decide)]
  rw [splitWs_tok_sp ("d=".toList ++ m.dir_id) _
    (wsfree_append _ _ (by decide) hd) (by simp)]
  rw [splitWs_tok_sp ("p=".toList ++ m.parent_id) _
    (wsfree_append _ _ (by decide) hp) (by simp)]
  rw [splitWs_tok_end ("name=".toList ++ escape_spaces m.name)
    (wsfree_append _ _ (by decide) hn) (by simp)]

theorem splitOnceAux_step (acc : Str) (c : Char) (r : Str) (h : ¬ c = '=') :
    splitOnceAux acc (c :: r) = splitOnceAux (c :: acc) r := by
  simp [splitOnceAux, h]

theorem splitOnceAux_hit (acc r : Str) :
    splitOnceAux acc ('=' :: r) = some (acc.reverse, r) := by
  simp [splitOnceAux]

theorem splitOnceEq_key1 (c : Char) (v : Str) (h : ¬ c = '=') :
    splitOnceEq (c :: '=' :: v) = some ([c], v) := by
  rw [splitOnceEq, splitOnceAux_step [] c _ h, splitOnceAux_hit]
  rfl

theorem splitOnceEq_name_key (v : Str) :
    splitOnceEq ("name=".toList ++ v) = some ("name".toList, v) := by
  show splitOnceAux [] ('n' :: 'a' :: 'm' :: 'e' :: '=' :: v) = _
  rw [splitOnceAux_step _ _ _ (by decide), splitOnceAux_step _ _ _ (by decide),
    splitOnceAux_step _ _ _ (by decide), splitOnceAux_step _ _ _ (by decide),
    splitOnceAux_hit]
  rfl

theorem kvPairs_file_caption (m : FileMeta)
    (hd : ∀ c ∈ m.dir_id, rustWs c = false)
    (hf : ∀ c ∈ m.file_id, rustWs c = false)
    (hh : ∀ c ∈ m.hash_short, rustWs c = false)
    (hn : ∀ c ∈ escape_spaces m.name, rustWs c = false) :
    kvPairs (make_file_caption m) =
      [(['d'], m.dir_id), (['f'], m.file_id),
       (['n'], escape_spaces m.name), (['h'], m.hash_short)] := by
  rw [kvPairs, split_file_caption m hd hf hh hn]
  have e1 : splitOnceEq ['#', 'o', 'c', 'l', 't', 'g'] = none := by decide
  have e2 : splitOnceEq ['#', 'v', '1'] = none := by decide
  have e3 : splitOnceEq ['#', 'f', 'i', 'l', 'e'] = none := by decide
  have e4 : splitOnceEq ('d' :: '=' :: m.dir_id) = some (['d'], m.dir_id) :=
    splitOnceEq_key1 'd' m.dir_id (by decide)
  have e5 : splitOnceEq ('f' :: '=' :: m.file_id) = some (['f'], m.file_id) :=
    splitOnceEq_key1 'f' m.file_id (by decide)
  have e6 : splitOnceEq ('n' :: '=' :: escape_spaces m.name) =
      some (['n'], escape_spaces m.name) :=
    splitOnceEq_key1 'n' (escape_spaces m.name) (by decide)
  have e7 : splitOnceEq ('h' :: '=' :: m.hash_short) = some (['h'], m.hash_short) :=
    splitOnceEq_key1 'h' m.hash_short (by decide)
  simp [List.filterMap_cons, e1, e2, e3, e4, e5, e6, e7]

theorem kvPairs_dir_message (m : DirMeta)
    (hd : ∀ c ∈ m.dir_id, rustWs c = false)
    (hp : ∀ c ∈ m.parent_id, rustWs c = false)
    (hn : ∀ c ∈ escape_spaces m.name, rustWs c = false) :
    kvPairs (make_dir_message m) =
      [(['d'], m.dir_id), (['p'], m.parent_id),
       ("name".toList, escape_spaces m.name)] := by
  rw [kvPairs, split_dir_message m hd hp hn]
  have e1 : splitOnceEq ['#', 'o', 'c', 'l', 't', 'g'] = none := by decide
  have e2 : splitOnceEq ['#', 'v', '1'] = none := by decide
  have e3 : splitOnceEq ['#', 'd', 'i', 'r'] = none := by decide
  have e4 : splitOnceEq ('d' :: '=' :: m.dir_id) = some (['d'], m.dir_id) :=
    splitOnceEq_key1 'd' m.dir_id (by decide)
  have e5 : splitOnceEq ('p' :: '=' :: m.parent_id) = some (['p'], m.parent_id) :=
    splitOnceEq_key1 'p' m.parent_id (by decide)
  have e6 : splitOnceEq ('n' :: 'a' :: 'm' :: 'e' :: '=' :: escape_spaces m.name) =
      some (['n', 'a', 'm', 'e'], escape_spaces m.name) :=
    splitOnceEq_name_key (escape_spaces m.name)
  simp [List.filterMap_cons, e1, e2, e3, e4, e5, e6]

theorem containsSub_append_r (p a b : Str) (h : containsSub p b = true) :
    containsSub p (a ++ b) = true := by
  induction a with
  | nil => simpa using h
  | cons c a' ih =>
      simp only [List.cons_append, containsSub, Bool.or_eq_true]
      right
      exact ih

theorem kvGet_file_d (m : FileMeta)
    (hp : kvPairs (make_file_caption m) =
      [(['d'], m.dir_id), (['f'], m.file_id),
       (['n'], escape_spaces m.name), (['h'], m.hash_short)]) :
    kvGet (make_file_caption m) ['d'] = some m.dir_id := by
  rw [kvGet, hp]
  simp [List.find?]

theorem kvGet_file_f (m : FileMeta)
    (hp : kvPairs (make_file_caption m) =
      [(['d'], m.dir_id), (['f'], m.file_id),
       (['n'], escape_spaces m.name), (['h'], m.hash_short)]) :
    kvGet (make_file_caption m) ['f'] = some m.file_id := by
  rw [kvGet, hp]
  simp [List.find?]

theorem kvGet_file_n (m : FileMeta)
    (hp : kvPairs (make_file_caption m) =
      [(['d'], m.dir_id), (['f'], m.file_id),
       (['n'], escape_spaces m.name), (['h'], m.hash_short)]) :
    kvGet (make_file_caption m) ['n'] = some (escape_spaces m.name) := by
  rw [kvGet, hp]
  simp [List.find?]

theorem kvGet_file_h (m : FileMeta)
    (hp : kvPairs (make_file_caption m) =
      [(['d'], m.dir_id), (['f'], m.file_id),
       (['n'], escape_spaces m.name), (['h'], m.hash_short)]) :
    kvGet (make_file_caption m) ['h'] = some m.hash_short := by
  rw [kvGet, hp]
  simp [List.find?]

theorem containsSub_cons_r (p : Str) (c : Char) (s : Str)
    (h : containsSub p s = true) : containsSub p (c :: s) = true := by
  rw [containsSub, Bool.or_eq_true]
  right
  exact h

theorem parse_make_file (m : FileMeta)
    (h1 : goodTok m.dir_id = true) (h2 : goodTok m.file_id = true)
    (h3 : goodTok m.hash_short = true) (h4 : goodName m.name = true) :
    parse_file_caption (make_file_caption m) = Except.ok m := by
  have hd := goodTok_chars _ h1
  have hf := goodTok_chars _ h2
  have hh := goodTok_chars _ h3
  have hn := escape_spaces_ws_free _ h4
  have hp := kvPairs_file_caption m hd hf hh hn
  have hc1 : containsSub ['#', 'o', 'c', 'l', 't', 'g'] (make_file_caption m) = true := by
    rw [make_file_caption_shape]
    exact containsSub_append_l _ _ _ (by decide)
  have hc2 : containsSub ['#', 'v', '1'] (make_file_caption m) = true := by
    rw [make_file_caption_shape]
    exact containsSub_append_r _ _ _ (containsSub_cons_r _ _ _
      (containsSub_append_l _ _ _ (by decide)))
  have hc3 : containsSub ['#', 'f', 'i', 'l', 'e'] (make_file_caption m) = true := by
    rw [make_file_caption_shape]
    exact containsSub_append_r _ _ _ (containsSub_cons_r _ _ _
      (containsSub_append_r _ _ _ (containsSub_cons_r _ _ _
        (containsSub_append_l _ _ _ (by decide)))))
  have g1 := kvGet_file_d m hp
  have g2 := kvGet_file_f m hp
  have g3 := kvGet_file_n m hp
  have g4 := kvGet_file_h m hp
  rw [parse_file_caption, if_neg (not_not_intro ⟨hc1, hc2, hc3⟩), g1, g2, g3, g4]
  show Except.ok
      { dir_id := m.dir_id, file_id := m.file_id,
        name := unescape_spaces (escape_spaces m.name),
        hash_short := m.hash_short } = Except.ok m
  rw [unescape_escape m.name h4]

theorem kvGet_dir_d (m : DirMeta)
    (hp : kvPairs (make_dir_message m) =
      [(['d'], m.dir_id), (['p'], m.parent_id),
       ("name".toList, escape_spaces m.name)]) :
    kvGet (make_dir_message m) ['d'] = some m.dir_id := by
  rw [kvGet, hp]
  simp [List.find?]

theorem kvGet_dir_p (m : DirMeta)
    (hp : kvPairs (make_dir_message m) =
      [(['d'], m.dir_id), (['p'], m.parent_id),
       ("name".toList, escape_spaces m.name)]) :
    kvGet (make_dir_message m) ['p'] = some m.parent_id := by
  rw [kvGet, hp]
  simp [List.find?]

theorem kvGet_dir_name (m : DirMeta)
    (hp : kvPairs (make_dir_message m) =
      [(['d'], m.dir_id), (['p'], m.parent_id),
       ("name".toList, escape_spaces m.name)]) :
    kvGet (make_dir_message m) "name".toList = some (escape_spaces m.name) := by
  rw [kvGet, hp]
  simp [List.find?]

theorem parse_make_dir (m : DirMeta)
    (h1 : goodTok m.dir_id = true) (h2 : goodTok m.parent_id = true)
    (h4 : goodName m.name = true) :
    parse_dir_message (make_dir_message m) = Except.ok m := by
  have hd := goodTok_chars _ h1
  have hpp := goodTok_chars _ h2
  have hn := escape_spaces_ws_free _ h4
  have hp := kvPairs_dir_message m hd hpp hn
  have hc1 : containsSub ['#', 'o', 'c', 'l', 't', 'g'] (make_dir_message m) = true := by
    rw [make_dir_message_shape]
    exact containsSub_append_l _ _ _ (by decide)
  have hc2 : containsSub ['#', 'v', '1'] (make_dir_message m) = true := by
    rw [make_dir_message_shape]
    exact containsSub_append_r _ _ _ (containsSub_cons_r _ _ _
      (containsSub_append_l _ _ _ (by decide)))
  have hc3 : containsSub ['#', 'd', 'i', 'r'] (make_dir_message m) = true := by
    rw [make_dir_message_shape]
    exact containsSub_append_r _ _ _ (containsSub_cons_r _ _ _
      (containsSub_append_r _ _ _ (containsSub_cons_r _ _ _
        (containsSub_append_l _ _ _ (by decide)))))
  have g1 := kvGet_dir_d m hp
  have g2 := kvGet_dir_p m hp
  have g3 := kvGet_dir_name m hp
  rw [parse_dir_message, if_neg (not_not_intro ⟨hc1, hc2, hc3⟩), g1, g2, g3]
  show Except.ok
      { dir_id := m.dir_id, parent_id := m.parent_id,
        name := unescape_spaces (escape_spaces m.name) } = Except.ok m
  rw [unescape_escape m.name h4]

/-- A valid directory record whose name has two adjacent spaces. -/
def dmTwoSpaces : DirMeta :=
  { dir_id := "01HAAA".toList, parent_id := "ROOT".toList, name := "a  b".toList }

/-- A valid file record whose name has two adjacent spaces. -/
def fmTwoSpaces : FileMeta :=
  { dir_id := "01HAAA".toList, file_id := "01HBBB".toList,
    name := "a  b".toList, hash_short := "1a2b3c4d".toList }

/-- A round-trippable directory record with spaces and underscores. -/
def dmGood : DirMeta :=
  { dir_id := "01HCCC".toList, parent_id := "ROOT".toList,
    name := "My_Pro jects__2024".toList }

/-- A round-trippable file record with a space and an underscore. -/
def fmGood : FileMeta :=
  { dir_id := "01HAAA".toList, file_id := "01HBBB".toList,
    name := "report final_v2.pdf".toList, hash_short := "1a2b3c4d".toList }

/-- Claim C1 (as stated, refuted): the round-trip law `decode(encode(x)) = Ok x`
fails for the valid directory record named `"a  b"` (two adjacent spaces) and
for the file record with the same name: the two spaces collapse into one
underscore on decoding, because `escape_spaces` is not injective on
space/underscore runs. -/
theorem C1_roundtrip_counterexample :
    parse_dir_message (make_dir_message dmTwoSpaces) ≠ Except.ok dmTwoSpaces ∧
    parse_file_caption (make_file_caption fmTwoSpaces) ≠ Except.ok fmTwoSpaces := by
  decide

/-- Claim C1 (amended): the round-trip law holds for every directory and file
record whose id/hash fields contain no whitespace and whose name contains no
NUL, no whitespace other than plain spaces, and no space immediately followed
by a space or an underscore (`goodName`). -/
theorem C1_roundtrip_amended (dm : DirMeta) (fm : FileMeta)
    (hd1 : goodTok dm.dir_id = true) (hd2 : goodTok dm.parent_id = true)
    (hd3 : goodName dm.name = true)
    (hf1 : goodTok fm.dir_id = true) (hf2 : goodTok fm.file_id = true)
    (hf3 : goodTok fm.hash_short = true) (hf4 : goodName fm.name = true) :
    parse_dir_message (make_dir_message dm) = Except.ok dm ∧
    parse_file_caption (make_file_caption fm) = Except.ok fm :=
  ⟨parse_make_dir dm hd1 hd2 hd3, parse_make_file fm hf1 hf2 hf3 hf4⟩

/-- Witness for `C1_roundtrip_amended` at concrete records with spaces and
underscores in the names. -/
theorem C1_roundtrip_amended_witness :
    parse_dir_message (make_dir_message dmGood) = Except.ok dmGood ∧
    parse_file_caption (make_file_caption fmGood) = Except.ok fmGood :=
  C1_roundtrip_amended dmGood fmGood
    (by decide) (by decide) (by decide) (by decide) (by decide) (by decide)
    (by decide)

/-! ### Local relational store model -/

/-- Rust `str::trim` (both ends, `char::is_whitespace`). -/
def trimStr (s : Str) : Str :=
  ((s.dropWhile rustWs).reverse.dropWhile rustWs).reverse

/-- Row of the `directories` table (`id` is the primary key; `is_broken`
defaults to 0 on insert per the migrations, which live outside `src/`). -/
structure DirRow where
  id : Str
  parent_id : Option Str
  name : Str
  tg_msg_id : Option Int
  updated_at : Int
  is_broken : Bool
deriving DecidableEq, Repr

/-- Row of the `files` table (`id` is the primary key). -/
structure FileRow where
  id : Str
  dir_id : Str
  name : Str
  size : Int
  hash : Str
  tg_chat_id : Int
  tg_msg_id : Int
  created_at : Int
  is_broken : Bool
deriving DecidableEq, Repr

/-- Store state: the two tables plus the SyncState collaborator, modelled by
the parsed `storage_last_message_id` watermark and the
`storage_reconcile_done` marker it stores. -/
structure St where
  dirs : List DirRow
  files : List FileRow
  lastMessageId : Option Int
  reconcileDone : Bool
deriving DecidableEq, Repr

/-- A transport history message (`telegram/mod.rs` `HistoryMessage`; the
`file_name` field is constructed in `tdlib.rs` and read by the indexer). -/
structure Msg where
  id : Int
  date : Int
  text : Option Str
  caption : Option Str
  file_size : Option Int
  file_name : Option Str
deriving DecidableEq, Repr

/-- `dirs.rs` lines 253-255 (`normalize_parent_id`): drop blank or `"ROOT"`. -/
def normalizeParentId (raw : Option Str) : Option Str :=
  raw.filter (fun p => !(trimStr p).isEmpty && !(p == "ROOT".toList))

/-- `SELECT ... FROM directories WHERE id = ?` with `fetch_optional`. -/
def findDir (dirs : List DirRow) (id : Str) : Option DirRow :=
  dirs.find? (fun r => r.id == id)

/-- `dirs.rs` lines 257-264 (`dir_exists`): `COUNT(1) > 0`. -/
def dirExists (dirs : List DirRow) (id : Str) : Bool :=
  dirs.any (fun r => r.id == id)

/-- One step of the `has_ancestor` walk (`dirs.rs` lines 272-278): fetch the
row, take its non-NULL parent, normalize. -/
def nextParent (dirs : List DirRow) (id : Str) : Option Str :=
  ((findDir dirs id).bind (fun r => r.parent_id)).bind
    (fun p => normalizeParentId (some p))

/-- `dirs.rs` lines 266-281 (`has_ancestor`): iterative walk over parent
links with NO iteration cap.  The `while let` loop is modelled with explicit
fuel: `none` means the loop has not finished within `fuel` iterations. -/
def hasAncestorFuel (dirs : List DirRow) (target : Str) :
    Option Str → Nat → Option Bool
  | _, 0 => none
  | none, _ + 1 => some false
  | some id, n + 1 =>
      if id == target then some true
      else hasAncestorFuel dirs target (nextParent dirs id) n

/-- A two-directory table whose parent chain is a cycle `A -> B -> A`. -/
def cycDirs : List DirRow :=
  [{ id := ['A'], parent_id := some ['B'], name := ['a'], tg_msg_id := none,
     updated_at := 0, is_broken := false },
   { id := ['B'], parent_id := some ['A'], name := ['b'], tg_msg_id := none,
     updated_at := 0, is_broken := false }]

theorem cyc_walk_stuck (n : Nat) :
    hasAncestorFuel cycDirs ['C'] (some ['A']) n = none ∧
    hasAncestorFuel cycDirs ['C'] (some ['B']) n = none := by
  induction n with
  | zero => exact ⟨rfl, rfl⟩
  | succ k ih =>
      constructor
      · rw [hasAncestorFuel, if_neg (by decide),
          show nextParent cycDirs ['A'] = some ['B'] from by decide]
        exact ih.2
      · rw [hasAncestorFuel, if_neg (by decide),
          show nextParent cycDirs ['B'] = some ['A'] from by decide]
        exact ih.1

/-- Claim C7 (as stated, refuted): the ancestor walk has no iteration cap;
on the cyclic two-row state `cycDirs` the walk from `A` towards target `C`
never terminates, however many iterations it is allowed. -/
theorem C7_bounded_walk_counterexample :
    ¬ ∃ n, (hasAncestorFuel cycDirs ['C'] (some ['A']) n).isSome = true := by
  intro h
  obtain ⟨n, hn⟩ := h
  rw [(cyc_walk_stuck n).1] at hn
  simp at hn

theorem nextParent_rank_lt (dirs : List DirRow) (rank : Str → Nat) (s p : Str)
    (hr : ∀ r ∈ dirs, (match normalizeParentId r.parent_id with
      | some q => decide (rank q < rank r.id)
      | none => true) = true)
    (hnp : nextParent dirs s = some p) : rank p < rank s := by
  unfold nextParent at hnp
  cases hfd : findDir dirs s with
  | none => rw [hfd] at hnp; simp at hnp
  | some r =>
      rw [hfd] at hnp
      simp only [Option.some_bind] at hnp
      have hmem : r ∈ dirs := List.mem_of_find?_eq_some hfd
      have hid : r.id = s := by
        have := List.find?_some hfd
        simpa using this
      have hnr : normalizeParentId r.parent_id = some p := by
        cases hpp : r.parent_id with
        | none => rw [hpp] at hnp; simp at hnp
        | some q =>
            rw [hpp] at hnp
            simp only [Option.some_bind] at hnp
            exact hnp
      have := hr r hmem
      rw [hnr] at this
      rw [← hid]
      exact of_decide_eq_true this

/-- Claim C7 (amended): the walk is iterative and uncapped; it terminates
(within `rank` of the start plus two iterations) on every state whose parent
links strictly decrease some rank function, i.e. on every acyclic parent
graph.  On a state whose chain reaches a cycle it need not terminate
(`C7_bounded_walk_counterexample`). -/
theorem C7_walk_terminates_amended (dirs : List DirRow) (target s : Str)
    (rank : Str → Nat) (fuel : Nat)
    (hr : ∀ r ∈ dirs, (match normalizeParentId r.parent_id with
      | some q => decide (rank q < rank r.id)
      | none => true) = true)
    (hf : rank s + 2 ≤ fuel) :
    (hasAncestorFuel dirs target (some s) fuel).isSome = true := by
  have main : ∀ n s fuel, rank s ≤ n → rank s + 2 ≤ fuel →
      (hasAncestorFuel dirs target (some s) fuel).isSome = true := by
    intro n
    induction n with
    | zero =>
        intro s fuel hrs hfuel
        cases fuel with
        | zero => omega
        | succ k =>
            rw [hasAncestorFuel]
            by_cases hst : (s == target) = true
            · simp [hst]
            · rw [if_neg (by simp [hst])]
              cases hnp : nextParent dirs s with
              | none =>
                  cases k with
                  | zero => omega
                  | succ j => simp [hasAncestorFuel]
              | some p =>
                  have := nextParent_rank_lt dirs rank s p hr hnp
                  omega
    | succ m ih =>
        intro s fuel hrs hfuel
        cases fuel with
        | zero => omega
        | succ k =>
            rw [hasAncestorFuel]
            by_cases hst : (s == target) = true
            · simp [hst]
            · rw [if_neg (by simp [hst])]
              cases hnp : nextParent dirs s with
              | none =>
                  cases k with
                  | zero => omega
                  | succ j => simp [hasAncestorFuel]
              | some p =>
                  have hlt := nextParent_rank_lt dirs rank s p hr hnp
                  exact ih p k (by omega) (by omega)
  exact main (rank s) s fuel (Nat.le_refl _) hf

/-- An acyclic two-directory chain `A -> B -> root`. -/
def chainDirs : List DirRow :=
  [{ id := ['A'], parent_id := some ['B'], name := ['a'], tg_msg_id := none,
     updated_at := 0, is_broken := false },
   { id := ['B'], parent_id := none, name := ['b'], tg_msg_id := none,
     updated_at := 0, is_broken := false }]

/-- Witness for `C7_walk_terminates_amended` on the acyclic chain. -/
theorem C7_walk_terminates_amended_witness :
    (hasAncestorFuel chainDirs ['C'] (some ['A']) 3).isSome = true :=
  C7_walk_terminates_amended chainDirs ['C'] ['A']
    (fun id => if id == ['A'] then 1 else 0) 3 (by decide) (by decide)

/-! ### Directory mutator (`dirs.rs`) -/

/-- Transport results consumed by one `ensure_dir_message` call. -/
structure DirTgOracle where
  editResult : Except Str Unit
  sendResult : Except Str Int
deriving DecidableEq, Repr

/-- `dirs.rs` lines 236-251 (`fetch_dir`): the row with its parent
normalized. -/
def fetch_dir_model (dirs : List DirRow) (id : Str) : Option DirRow :=
  (findDir dirs id).map (fun r => { r with parent_id := normalizeParentId r.parent_id })

/-- `dirs.rs` lines 283-307 (`ensure_dir_message`): edit in place when a
backing message exists, else (or on edit failure) publish a replacement.
Returns the resulting message id (or the send error) and the list of newly
published message texts. -/
def ensureDirMessage (o : DirTgOracle) (dirId : Str) (dirMsgId : Option Int)
    (parentId : Option Str) (name : Str) : Except Str Int × List Str :=
  let parentTag := parentId.getD "ROOT".toList
  let msg := make_dir_message { dir_id := dirId, parent_id := parentTag, name := name }
  match dirMsgId with
  | some msgId =>
      match o.editResult with
      | .ok _ => (.ok msgId, [])
      | .error _ =>
          match o.sendResult with
          | .ok newId => (.ok newId, [msg])
          | .error e => (.error e, [])
  | none =>
      match o.sendResult with
      | .ok newId => (.ok newId, [msg])
      | .error e => (.error e, [])

/-- The row update of `move_dir` (`UPDATE directories SET parent_id,
tg_msg_id, updated_at, is_broken = 0 WHERE id = ?`). -/
def moveUpdateRow (parentId : Option Str) (msgId : Int) (now : Int)
    (dirId : Str) (r : DirRow) : DirRow :=
  if r.id == dirId then
    { r with parent_id := parentId, tg_msg_id := some msgId, updated_at := now, is_broken := false }
  else r

/-- `dirs.rs` lines 94-108: the no-op check, message update and row update
performed by `move_dir` after its validations pass. -/
def moveDirApply (o : DirTgOracle) (dirs : List DirRow) (dir : DirRow)
    (parentId : Option Str) (now : Int) :
    List DirRow × List Str × Except Str Unit :=
  if dir.parent_id == parentId && dir.tg_msg_id.isSome then (dirs, [], .ok ())
  else
    match ensureDirMessage o dir.id dir.tg_msg_id parentId dir.name with
    | (.error e, pubs) => (dirs, pubs, .error e)
    | (.ok msgId, pubs) =>
        (dirs.map (moveUpdateRow parentId msgId now dir.id), pubs, .ok ())

/-- `dirs.rs` lines 72-109 (`move_dir`).  The ancestor walk gets explicit
fuel; `none` means that walk had not terminated within `fuel` steps. -/
def moveDir (o : DirTgOracle) (dirs : List DirRow) (dirId : Str)
    (parentRaw : Option Str) (fuel : Nat) (now : Int) :
    Option (List DirRow × List Str × Except Str Unit) :=
  match fetch_dir_model dirs dirId with
  | none => some (dirs, [], .error "Папка не найдена".toList)
  | some dir =>
      match normalizeParentId parentRaw with
      | some pid =>
          if pid == dirId then
            some (dirs, [], .error "Нельзя переместить папку внутрь самой себя".toList)
          else if !dirExists dirs pid then
            some (dirs, [], .error "Родительская папка не найдена".toList)
          else
            match hasAncestorFuel dirs dirId (some pid) fuel with
            | none => none
            | some true =>
                some (dirs, [], .error "Нельзя переместить папку в ее подпапку".toList)
            | some false => some (moveDirApply o dirs dir (some pid) now)
      | none => some (moveDirApply o dirs dir none now)

theorem ensureDirMessage_error_pubs (o : DirTgOracle) (dirId : Str)
    (dirMsgId : Option Int) (parentId : Option Str) (name : Str) (e : Str)
    (pubs : List Str)
    (h : ensureDirMessage o dirId dirMsgId parentId name = (Except.error e, pubs)) :
    pubs = [] := by
  unfold ensureDirMessage at h
  cases dirMsgId with
  | none =>
      cases hS : o.sendResult with
      | ok v => rw [hS] at h; simp at h
      | error e' => rw [hS] at h; simp at h; exact h.2
  | some msgId =>
      cases hE : o.editResult with
      | ok u => rw [hE] at h; simp at h
      | error e' =>
          rw [hE] at h
          cases hS : o.sendResult with
          | ok v => rw [hS] at h; simp at h
          | error e2 => rw [hS] at h; simp at h; exact h.2

theorem moveDirApply_error_frame (o : DirTgOracle) (dirs : List DirRow)
    (dir : DirRow) (parentId : Option Str) (now : Int)
    (dirs' : List DirRow) (pubs : List Str) (e : Str)
    (h : moveDirApply o dirs dir parentId now = (dirs', pubs, Except.error e)) :
    dirs' = dirs ∧ pubs = [] := by
  unfold moveDirApply at h
  split at h
  · simp at h
  · cases hE : ensureDirMessage o dir.id dir.tg_msg_id parentId dir.name with
    | mk res pubs0 =>
        rw [hE] at h
        cases res with
        | error e0 =>
            simp at h
            refine ⟨h.1.symm, ?_⟩
            rw [← h.2.1]
            exact ensureDirMessage_error_pubs o dir.id dir.tg_msg_id parentId
              dir.name e0 pubs0 hE
        | ok msgId => simp at h

/-- Claim C6: with directory `A` present and `B` a non-blank, non-ROOT
target id, `move_dir` returns an error whenever `B = A`, `B` does not exist
locally, or the ancestor walk finds `A` above `B` (B is a descendant of A at
any depth); and in every error case the directory table is unchanged and no
message is published. -/
theorem C6_move_dir_validation (o : DirTgOracle) (dirs : List DirRow)
    (A B : Str) (fuel : Nat) (now : Int) (rowA : DirRow)
    (hA : findDir dirs A = some rowA)
    (hB : normalizeParentId (some B) = some B) :
    ((B = A ∨ dirExists dirs B = false ∨
        hasAncestorFuel dirs A (some B) fuel = some true) →
      ∃ e, moveDir o dirs A (some B) fuel now = some (dirs, [], Except.error e)) ∧
    (∀ dirs' pubs e,
      moveDir o dirs A (some B) fuel now = some (dirs', pubs, Except.error e) →
      dirs' = dirs ∧ pubs = []) := by
  have hfd : fetch_dir_model dirs A =
      some { rowA with parent_id := normalizeParentId rowA.parent_id } := by
    rw [fetch_dir_model, hA]
    rfl
  constructor
  · intro hcase
    simp only [moveDir, hfd, hB]
    by_cases hBA : (B == A) = true
    · rw [if_pos hBA]
      exact ⟨_, rfl⟩
    · rw [if_neg hBA]
      by_cases hEx : dirExists dirs B = true
      · have hwalk : hasAncestorFuel dirs A (some B) fuel = some true := by
          rcases hcase with h | h | h
          · exact absurd (by simp [h]) hBA
          · rw [hEx] at h; cases h
          · exact h
        rw [if_neg (by simp [hEx]), hwalk]
        exact ⟨_, rfl⟩
      · have hEx' : (!dirExists dirs B) = true := by
          simp only [Bool.not_eq_true] at hEx
          simp [hEx]
        rw [if_pos hEx']
        exact ⟨_, rfl⟩
  · intro dirs' pubs e h
    simp only [moveDir, hfd, hB] at h
    by_cases hBA : (B == A) = true
    · rw [if_pos hBA] at h
      simp at h
      exact ⟨h.1.symm, h.2.1⟩
    · rw [if_neg hBA] at h
      by_cases hEx : (!dirExists dirs B) = true
      · rw [if_pos hEx] at h
        simp at h
        exact ⟨h.1.symm, h.2.1⟩
      · rw [if_neg hEx] at h
        cases hW : hasAncestorFuel dirs A (some B) fuel with
        | none => rw [hW] at h; simp at h
        | some b =>
            rw [hW] at h
            cases b with
            | true =>
                simp at h
                exact ⟨h.1.symm, h.2.1⟩
            | false =>
                simp only [Option.some.injEq] at h
                exact moveDirApply_error_frame o dirs _ (some B) now dirs' pubs e h

/-- Directory table for the C6 witness: `B` is a child of `A`. -/
def c6Dirs : List DirRow :=
  [{ id := ['A'], parent_id := none, name := ['a'], tg_msg_id := some 1,
     updated_at := 0, is_broken := false },
   { id := ['B'], parent_id := some ['A'], name := ['b'], tg_msg_id := some 2,
     updated_at := 0, is_broken := false }]

/-- The row of `A` in `c6Dirs`. -/
def c6RowA : DirRow :=
  { id := ['A'], parent_id := none, name := ['a'], tg_msg_id := some 1,
    updated_at := 0, is_broken := false }

/-- Transport oracle for the C6 witness (never reached on the error path). -/
def c6Oracle : DirTgOracle := { editResult := .ok (), sendResult := .ok 9 }

/-- Witness for `C6_move_dir_validation`: moving `A` under its child `B`
fails and leaves the table untouched with nothing published. -/
theorem C6_move_dir_validation_witness :
    ∃ e, moveDir c6Oracle c6Dirs ['A'] (some ['B']) 3 0 =
      some (c6Dirs, [], Except.error e) :=
  (C6_move_dir_validation c6Oracle c6Dirs ['A'] ['B'] 3 0 c6RowA
    (by decide) (by decide)).1 (Or.inr (Or.inr (by decide)))

/-- `SELECT COUNT(1) FROM directories WHERE parent_id = ?` (SQL `=` is false
on NULL). -/
def childDirCount (dirs : List DirRow) (dirId : Str) : Nat :=
  (dirs.filter (fun r => r.parent_id == some dirId)).length

/-- `SELECT COUNT(1) FROM files WHERE dir_id = ?`. -/
def childFileCount (files : List FileRow) (dirId : Str) : Nat :=
  (files.filter (fun f => f.dir_id == dirId)).length

/-- `message_ids.sort_unstable(); message_ids.dedup();`. -/
def sortDedupInts (l : List Int) : List Int :=
  (l.mergeSort (fun a b => decide (a ≤ b))).dedup

/-- Transport results consumed by `delete_dir`: the message ids its tag
search finds (`find_dir_messages`, which swallows transport errors), and
whether the best-effort `delete_messages` call succeeds. -/
structure DelOracle where
  foundMsgIds : List Int
  deleteOk : Bool
deriving DecidableEq, Repr

/-- `dirs.rs` line 130 conflict error carries both counts; `notFound` is the
`fetch_dir` failure. -/
inductive DeleteDirErr where
  | notFound : DeleteDirErr
  | notEmpty : Nat → Nat → DeleteDirErr
deriving DecidableEq, Repr

/-- `dirs.rs` lines 111-155 (`delete_dir`): refuse with both child counts
unless empty; otherwise best-effort delete the backing message plus the
duplicates found by tag search, then remove the row unconditionally (a
failed remote delete is logged, not surfaced).  The second output component
lists the remote message ids whose deletion was requested. -/
def delete_dir_model (o : DelOracle) (dirs : List DirRow)
    (files : List FileRow) (dirId : Str) :
    (List DirRow × List Int) × Except DeleteDirErr Unit :=
  match fetch_dir_model dirs dirId with
  | none => ((dirs, []), .error .notFound)
  | some dir =>
      let cc := childDirCount dirs dirId
      let fc := childFileCount files dirId
      if 0 < cc ∨ 0 < fc then ((dirs, []), .error (.notEmpty fc cc))
      else
        let msgIds := sortDedupInts
          ((match dir.tg_msg_id with | some m => [m] | none => []) ++ o.foundMsgIds)
        ((dirs.filter (fun r => !(r.id == dirId)), msgIds), .ok ())

/-- Claim C8: `delete_dir` returns a conflict error carrying the
child-file and child-directory counts (leaving the row in place) whenever
the directory is non-empty, and when it is empty it removes the local row
and succeeds for every transport oracle, i.e. even if the remote delete of
the backing message and its duplicates fails. -/
theorem C8_delete_dir (o : DelOracle) (dirs : List DirRow)
    (files : List FileRow) (dirId : Str) (row : DirRow)
    (hrow : findDir dirs dirId = some row) :
    ((0 < childDirCount dirs dirId ∨ 0 < childFileCount files dirId) →
      delete_dir_model o dirs files dirId =
        ((dirs, []),
         .error (.notEmpty (childFileCount files dirId) (childDirCount dirs dirId)))) ∧
    (childDirCount dirs dirId = 0 → childFileCount files dirId = 0 →
      (delete_dir_model o dirs files dirId).2 = .ok () ∧
      (delete_dir_model o dirs files dirId).1.1 =
        dirs.filter (fun r => !(r.id == dirId)) ∧
      dirExists (delete_dir_model o dirs files dirId).1.1 dirId = false) := by
  have hfd : fetch_dir_model dirs dirId =
      some { row with parent_id := normalizeParentId row.parent_id } := by
    rw [fetch_dir_model, hrow]
    rfl
  constructor
  · intro hne
    simp only [delete_dir_model, hfd]
    rw [if_pos hne]
  · intro hcc hfc
    have hne : ¬ (0 < childDirCount dirs dirId ∨ 0 < childFileCount files dirId) := by
      omega
    simp only [delete_dir_model, hfd]
    rw [if_neg hne]
    refine ⟨rfl, rfl, ?_⟩
    show ((dirs.filter (fun r => !(r.id == dirId))).any (fun r => r.id == dirId)) = false
    rw [List.any_eq_false]
    intro r hr
    rw [List.mem_filter] at hr
    have h2 := hr.2
    simp only [Bool.not_eq_true'] at h2
    simp [h2]

/-- Files table for the C8 witness: one file inside `B`. -/
def c8Files : List FileRow :=
  [{ id := ['f'], dir_id := ['B'], name := ['x'], size := 5, hash := ['h'],
     tg_chat_id := 1, tg_msg_id := 3, created_at := 0, is_broken := false }]

/-- Oracle for the C8 witness in which the remote delete fails. -/
def c8Oracle : DelOracle := { foundMsgIds := [2, 7], deleteOk := false }

/-- Witness for `C8_delete_dir` on `c6Dirs`: deleting non-empty `A` reports
the counts (0 files, 1 subdirectory); deleting empty `B` (one file belongs
to `B`, so `B` is non-empty — use `A` with no files instead) — here: `A` has
one child directory, so it conflicts; `B` has one file, so it conflicts with
counts (1, 0); and with `c8Files` removed, `B` deletes fine even though the
transport delete fails. -/
theorem C8_delete_dir_witness :
    delete_dir_model c8Oracle c6Dirs c8Files ['A'] =
      ((c6Dirs, []), .error (.notEmpty 0 1)) ∧
    (delete_dir_model c8Oracle c6Dirs [] ['B']).2 = .ok () ∧
    dirExists (delete_dir_model c8Oracle c6Dirs [] ['B']).1.1 ['B'] = false := by
  have h1 := (C8_delete_dir c8Oracle c6Dirs c8Files ['A'] c6RowA (by decide)).1
    (Or.inl (by decide))
  have hrowB : findDir c6Dirs ['B'] = some
      { id := ['B'], parent_id := some ['A'], name := ['b'], tg_msg_id := some 2,
        updated_at := 0, is_broken := false } := by decide
  have h2 := (C8_delete_dir c8Oracle c6Dirs [] ['B'] _ hrowB).2
    (by decide) (by decide)
  refine ⟨?_, h2.1, h2.2.2⟩
  rw [h1]
  have : childFileCount c8Files ['A'] = 0 := by decide
  rw [this]
  have : childDirCount c6Dirs ['A'] = 1 := by decide
  rw [this]

/-! ### Indexer (`indexer.rs`) -/

/-- SQLite `lower()` (ASCII-only case folding). -/
def lowerAscii (c : Char) : Char :=
  if 'A' ≤ c ∧ c ≤ 'Z' then Char.ofNat (c.toNat + 32) else c

/-- ASCII lowering of a string (the source's `to_lowercase` is full Unicode;
every settled claim only exercises ASCII here). -/
def lowerStr (s : Str) : Str := s.map lowerAscii

/-- Character class accepted inside a hashtag (`indexer.rs` line 378); the
source's `is_alphanumeric` is Unicode-wide, modelled ASCII-only — no settled
claim depends on the exact class. -/
def isTagChar (c : Char) : Bool := c.isAlphanum || c == '_' || c == '-'

/-- `indexer.rs` lines 365-367 (`is_reserved_tag`). -/
def is_reserved_tag (t : Str) : Bool :=
  t == "ocltg".toList || t == "v1".toList || t == "file".toList || t == "dir".toList

/-- Emit one collected tag (reversed accumulator), dropping empty and
reserved ones (`indexer.rs` lines 385-392). -/
def emitTag (acc : Str) : List Str :=
  let tag := acc.reverse
  if tag.isEmpty then []
  else if is_reserved_tag (lowerStr tag) then []
  else [tag]

/-- Character scanner of `extract_folder_tags`; `some acc` means the cursor
is inside a tag whose characters are accumulated in reverse. -/
def extractTagsAux : Option Str → Str → List Str
  | none, [] => []
  | some acc, [] => emitTag acc
  | none, c :: rest =>
      if c == '#' then extractTagsAux (some []) rest
      else extractTagsAux none rest
  | some acc, c :: rest =>
      if isTagChar c then extractTagsAux (some (c :: acc)) rest
      else
        emitTag acc ++
          (if c == '#' then extractTagsAux (some []) rest
           else extractTagsAux none rest)

/-- `indexer.rs` lines 369-395 (`extract_folder_tags`): scan for `#`, take
the following tag-character run, drop empty and reserved tags. -/
def extract_folder_tags (caption : Str) : List Str :=
  extractTagsAux none caption

/-- Scanner of `normalize_tag_name`, carrying the `last_space` flag. -/
def normalizeTagAux : Bool → Str → Str
  | _, [] => []
  | lastSp, c :: rest =>
      let mapped := if c == '_' || c == '-' then ' ' else c
      if rustWs mapped then
        (if lastSp then normalizeTagAux true rest
         else ' ' :: normalizeTagAux true rest)
      else mapped :: normalizeTagAux false rest

/-- `indexer.rs` lines 397-414 (`normalize_tag_name`): underscores/hyphens
to spaces, whitespace runs collapsed, trimmed; empty means no name. -/
def normalize_tag_name (tag : Str) : Option Str :=
  let cleaned := trimStr (normalizeTagAux false tag)
  if cleaned.isEmpty then none else some cleaned

/-- `str::trim_matches('_')`. -/
def trimUnderscores (s : Str) : Str :=
  ((s.dropWhile (fun c => c == '_')).reverse.dropWhile (fun c => c == '_')).reverse

/-- Scanner of `folder_hashtag`, carrying the `last_underscore` flag. -/
def hashtagAux : Bool → Str → Str
  | _, [] => []
  | lastU, c :: rest =>
      if c.isAlphanum then c :: hashtagAux false rest
      else if (c == '_' || rustWs c || c == '-' || c == '.') then
        (if lastU then hashtagAux true rest else '_' :: hashtagAux true rest)
      else hashtagAux lastU rest

/-- `indexer.rs` lines 339-363 / `files.rs` lines 628-650 (`folder_hashtag`):
alphanumeric-normalized, underscore-joined folder hashtag. -/
def folder_hashtag (name : Str) : Option Str :=
  let trimmed := trimStr name
  if trimmed.isEmpty then none
  else
    let cleaned := trimUnderscores (hashtagAux false trimmed)
    if cleaned.isEmpty then none else some ('#' :: cleaned)

/-- `indexer.rs` lines 330-337 / `files.rs` lines 619-626
(`make_file_caption_with_tag`). -/
def make_file_caption_with_tag (meta : FileMeta) (dirName : Option Str) : Str :=
  let base := make_file_caption meta
  match dirName.bind folder_hashtag with
  | some tag => base ++ ' ' :: tag
  | none => base

/-- Preference order of `find_dir_by_name`'s
`ORDER BY (parent_id IS NULL) DESC, updated_at DESC LIMIT 1`. -/
def betterDirRow (r b : DirRow) : Bool :=
  (r.parent_id.isNone && !b.parent_id.isNone) ||
  (r.parent_id.isNone == b.parent_id.isNone && decide (b.updated_at < r.updated_at))

/-- `indexer.rs` lines 296-307 (`find_dir_by_name`): case-insensitive name
match, preferring root directories then the most recently updated row. -/
def findDirByName (dirs : List DirRow) (name : Str) : Option (Str × Str) :=
  let hits := dirs.filter (fun r => lowerStr r.name == lowerStr name)
  (hits.foldl (fun best r =>
    match best with
    | none => some r
    | some b => if betterDirRow r b then some r else some b) none).map
      (fun r => (r.id, r.name))

/-- Fuel-indexed digit expansion (the fuel `n + 1` always suffices). -/
def natDigitsAux : Nat → Nat → Str
  | 0, _ => []
  | fuel + 1, n =>
      if n < 10 then [Char.ofNat (48 + n)]
      else natDigitsAux fuel (n / 10) ++ [Char.ofNat (48 + n % 10)]

/-- Decimal digits of a natural number (for Rust's `format!("{}", n)`). -/
def natDigits (n : Nat) : Str := natDigitsAux (n + 1) n

/-- Rust `i64` `Display`. -/
def intToStr (i : Int) : Str :=
  if i < 0 then '-' :: natDigits (-i).toNat else natDigits i.toNat

/-- `indexer.rs` lines 271-294 (`ensure_dir_placeholder`): insert a
placeholder row named "Неизвестная папка" unless the id is blank or already
present (`ON CONFLICT(id) DO NOTHING`). -/
def ensureDirPlaceholder (dirs : List DirRow) (dirId : Str) (date : Int) :
    List DirRow :=
  if (trimStr dirId).isEmpty then dirs
  else if dirs.any (fun r => r.id == dirId) then dirs
  else dirs ++ [{ id := dirId, parent_id := none, name := "Неизвестная папка".toList,
                  tg_msg_id := none, updated_at := date, is_broken := false }]

/-- The `INSERT ... ON CONFLICT(id) DO UPDATE` of `upsert_dir`
(`indexer.rs` lines 229-239): on conflict it updates parent, name, message
ref and timestamp but not `is_broken`. -/
def upsertDirRow (dirs : List DirRow) (id : Str) (parentId : Option Str)
    (name : Str) (msgId : Option Int) (date : Int) : List DirRow :=
  if dirs.any (fun r => r.id == id) then
    dirs.map (fun r => if r.id == id then
      { r with parent_id := parentId, name := name, tg_msg_id := msgId, updated_at := date }
      else r)
  else dirs ++ [{ id := id, parent_id := parentId, name := name,
                  tg_msg_id := msgId, updated_at := date, is_broken := false }]

/-- Parent stored by `upsert_dir` (`indexer.rs` lines 221-225): NULL for
`"ROOT"` or a blank value. -/
def dirParentOf (m : DirMeta) : Option Str :=
  if m.parent_id == "ROOT".toList || (trimStr m.parent_id).isEmpty then none
  else some m.parent_id

/-- `indexer.rs` lines 220-241 (`upsert_dir`). -/
def upsert_dir_model (dirs : List DirRow) (meta : DirMeta) (msgId date : Int) :
    List DirRow :=
  let dirs1 := match dirParentOf meta with
    | some pid => ensureDirPlaceholder dirs pid date
    | none => dirs
  upsertDirRow dirs1 meta.dir_id (dirParentOf meta) meta.name (some msgId) date

/-- The `INSERT ... ON CONFLICT(id) DO UPDATE` of `upsert_file`
(`indexer.rs` lines 253-267): on conflict it updates dir, name, size, hash
and message refs but neither `created_at` nor `is_broken`. -/
def upsertFileRow (files : List FileRow) (meta : FileMeta)
    (chatId msgId date size : Int) : List FileRow :=
  if files.any (fun f => f.id == meta.file_id) then
    files.map (fun f => if f.id == meta.file_id then
      { f with dir_id := meta.dir_id, name := meta.name, size := size, hash := meta.hash_short, tg_chat_id := chatId, tg_msg_id := msgId }
      else f)
  else files ++ [{ id := meta.file_id, dir_id := meta.dir_id, name := meta.name,
                   size := size, hash := meta.hash_short, tg_chat_id := chatId,
                   tg_msg_id := msgId, created_at := date, is_broken := false }]

/-- `indexer.rs` lines 243-269 (`upsert_file`): placeholder directory first,
then the file upsert. -/
def upsert_file_model (dirs : List DirRow) (files : List FileRow)
    (meta : FileMeta) (chatId msgId date size : Int) :
    List DirRow × List FileRow :=
  (ensureDirPlaceholder dirs meta.dir_id date,
   upsertFileRow files meta chatId msgId date size)

/-- Transport results and generated values consumed while indexing one
message: fresh ULIDs, the untagged-import hash (a SHA-256 prefix of a seed,
not re-modelled), the `send_dir_message` result inside `create_dir`, the two
caption-edit attempts of `edit_caption_with_retry`, the four
`message_exists` probes of `message_exists_with_retry`, and the clock. -/
structure ImportOracle where
  freshDirId : Str
  freshFileId : Str
  importHash : Str
  sendDirResult : Except Str Int
  editCap1 : Except Str Unit
  editCap2 : Except Str Unit
  existsChecks : List (Except Str Bool)
  now : Int
deriving DecidableEq, Repr

/-- `dirs.rs` lines 10-41 (`create_dir`): insert the row with a NULL
backing ref, publish the encoded message, then store the returned ref.  On
publish failure the row stays (retryable later); the error propagates.
A fresh-ULID collision would surface as a store error and is modelled as an
insert failure. -/
def create_dir_model (o : ImportOracle) (dirs : List DirRow)
    (parentRaw : Option Str) (name : Str) :
    (List DirRow × List Str) × Except Str Str :=
  let parentId := parentRaw.filter
    (fun p => !(trimStr p).isEmpty && !(p == "ROOT".toList))
  if dirs.any (fun r => r.id == o.freshDirId) then
    ((dirs, []), .error "duplicate id".toList)
  else
    let dirs1 := dirs ++ [{ id := o.freshDirId, parent_id := parentId, name := name, tg_msg_id := none, updated_at := o.now, is_broken := false }]
    let parentTag := parentId.getD "ROOT".toList
    let msg := make_dir_message { dir_id := o.freshDirId, parent_id := parentTag, name := name }
    match o.sendDirResult with
    | .error e => ((dirs1, []), .error e)
    | .ok msgId =>
        ((dirs1.map (fun r => if r.id == o.freshDirId then
            { r with tg_msg_id := some msgId, updated_at := o.now, is_broken := false } else r),
          [msg]), .ok o.freshDirId)

/-- `indexer.rs` lines 309-320 (`ensure_dir_by_name`): reuse a directory of
that name, else create one under the root. -/
def ensure_dir_by_name_model (o : ImportOracle) (dirs : List DirRow)
    (name : Str) : (List DirRow × List Str) × Except Str (Str × Str) :=
  match findDirByName dirs name with
  | some found => ((dirs, []), .ok found)
  | none =>
      match create_dir_model o dirs none name with
      | ((dirs1, pubs), .ok id) => ((dirs1, pubs), .ok (id, name))
      | ((dirs1, pubs), .error e) => ((dirs1, pubs), .error e)

/-- The tag loop of `import_untagged_file` (`indexer.rs` lines 89-100):
first normalized tag becomes the preferred name; the first tag naming an
existing directory resolves the target. -/
def scanTags (dirs : List DirRow) : List Str → Option Str →
    Option Str × Option (Str × Str)
  | [], pref => (pref, none)
  | tag :: rest, pref =>
      match normalize_tag_name tag with
      | none => scanTags dirs rest pref
      | some name =>
          let pref' := match pref with
            | none => some name
            | some p => some p
          match findDirByName dirs name with
          | some found => (pref', some found)
          | none => scanTags dirs rest pref'

/-- `indexer.rs` lines 176-192 (`edit_caption_with_retry`): two attempts;
both failures are combined. -/
def editCaptionRetry (o : ImportOracle) : Except Str Unit :=
  match o.editCap1 with
  | .ok _ => .ok ()
  | .error e1 =>
      match o.editCap2 with
      | .ok _ => .ok ()
      | .error e2 => .error (e1 ++ "; ".toList ++ e2)

/-- `indexer.rs` lines 194-218 (`message_exists_with_retry`): probes with
increasing backoff; true as soon as one probe returns `Ok(true)`. -/
def msgExistsRetry (checks : List (Except Str Bool)) : Bool :=
  checks.any (fun r => match r with
    | .ok true => true
    | _ => false)

/-- `indexer.rs` lines 67-70 (`ImportAction`). -/
inductive ImportAction where
  | Imported : ImportAction
  | Skipped : ImportAction
deriving DecidableEq, Repr

/-- Target-directory resolution of `import_untagged_file` (`indexer.rs`
lines 88-111): scan caption hashtags, else create the preferred name, else
fall back to the cached well-known unassigned directory. -/
def importResolveTarget (o : ImportOracle) (dirs : List DirRow)
    (cache : Option (Str × Str)) (captionText : Str) :
    ((List DirRow × List Str) × Option (Str × Str)) × Except Str (Str × Str) :=
  match scanTags dirs (extract_folder_tags captionText) none with
  | (_, some found) => (((dirs, []), cache), .ok found)
  | (some name, none) =>
      match ensure_dir_by_name_model o dirs name with
      | (dp, .ok t) => ((dp, cache), .ok t)
      | (dp, .error e) => ((dp, cache), .error e)
  | (none, none) =>
      match cache with
      | some t => (((dirs, []), cache), .ok t)
      | none =>
          match ensure_dir_by_name_model o dirs "Неразобранное".toList with
          | (dp, .ok t) => ((dp, some t), .ok t)
          | (dp, .error e) => ((dp, cache), .error e)

/-- The row inserted for an imported untagged attachment (`indexer.rs`
lines 147-160). -/
def importRow (o : ImportOracle) (chat : Int) (msg : Msg) (dirId name : Str) :
    FileRow :=
  { id := o.freshFileId, dir_id := dirId, name := name,
    size := msg.file_size.getD 0, hash := o.importHash, tg_chat_id := chat,
    tg_msg_id := msg.id,
    created_at := if 0 < msg.date then msg.date else o.now, is_broken := false }

/-- Tail of `import_untagged_file` after target resolution (`indexer.rs`
lines 113-173): derive the file name, republish the caption best-effort,
verify the message still exists, then insert the row (a duplicate-id insert
failure is logged and reported as skipped). -/
def importFinish (o : ImportOracle) (chat : Int) (msg : Msg)
    (target : Str × Str) (dirs1 : List DirRow) (pubs : List Str)
    (cache1 : Option (Str × Str)) (files : List FileRow) :
    ((List DirRow × List FileRow) × List Str × Option (Str × Str)) ×
      Except Str ImportAction :=
  let fileName := match msg.file_name with
    | some v => if (trimStr v).isEmpty then "файл_".toList ++ intToStr msg.id else v
    | none => "файл_".toList ++ intToStr msg.id
  let caption := make_file_caption_with_tag
    { dir_id := target.1, file_id := o.freshFileId, name := fileName,
      hash_short := o.importHash } (some target.2)
  let editOutcome := editCaptionRetry o
  if !msgExistsRetry o.existsChecks then
    (((dirs1, files), pubs, cache1), .ok .Skipped)
  else if files.any (fun f => f.id == o.freshFileId) then
    (((dirs1, files), pubs, cache1), .ok .Skipped)
  else
    let _ := caption
    let _ := editOutcome
    (((dirs1, files ++ [importRow o chat msg target.1 fileName]), pubs, cache1),
     .ok .Imported)

/-- `indexer.rs` lines 72-174 (`import_untagged_file`). -/
def import_untagged (o : ImportOracle) (chat : Int) (msg : Msg)
    (cache : Option (Str × Str)) (dirs : List DirRow) (files : List FileRow) :
    ((List DirRow × List FileRow) × List Str × Option (Str × Str)) ×
      Except Str ImportAction :=
  if files.any (fun f => f.tg_chat_id == chat && f.tg_msg_id == msg.id) then
    (((dirs, files), [], cache), .ok .Skipped)
  else
    match importResolveTarget o dirs cache (msg.caption.getD []) with
    | (((dirs1, pubs), cache1), .error e) =>
        (((dirs1, files), pubs, cache1), .error e)
    | (((dirs1, pubs), cache1), .ok target) =>
        importFinish o chat msg target dirs1 pubs cache1 files

/-- `indexer.rs` lines 13-20 (`IndexOutcome`); `failed` is never set
anywhere in the source. -/
structure IndexOutcome where
  dir : Bool := false
  file : Bool := false
  imported : Bool := false
  skipped : Bool := false
  failed : Bool := false
deriving DecidableEq, Repr

/-- `indexer.rs` lines 22-65 (`index_storage_message`) acting on the two
tables: classify as directory metadata, file metadata, untagged attachment,
or skip. -/
def indexCore (o : ImportOracle) (chat : Int) (msg : Msg)
    (cache : Option (Str × Str)) (dirs : List DirRow) (files : List FileRow) :
    ((List DirRow × List FileRow) × List Str × Option (Str × Str)) ×
      Except Str IndexOutcome :=
  match msg.text.bind (fun t => (parse_dir_message t).toOption) with
  | some meta =>
      (((upsert_dir_model dirs meta msg.id msg.date, files), [], cache),
       .ok { dir := true })
  | none =>
      match msg.caption.bind (fun c => (parse_file_caption c).toOption) with
      | some meta =>
          let (dirs1, files1) := upsert_file_model dirs files meta chat msg.id
            msg.date (msg.file_size.getD 0)
          (((dirs1, files1), [], cache), .ok { file := true })
      | none =>
          let hasFile := msg.file_size.isSome ||
            (match msg.file_name with
             | some v => !(trimStr v).isEmpty
             | none => false)
          if !hasFile then (((dirs, files), [], cache), .ok { skipped := true })
          else
            match import_untagged o chat msg cache dirs files with
            | (stp, .ok .Imported) => (stp, .ok { imported := true, file := true })
            | (stp, .ok .Skipped) => (stp, .ok { skipped := true })
            | (stp, .error e) => (stp, .error e)

/-- `index_storage_message` on the full store state. -/
def index_storage_message_model (o : ImportOracle) (chat : Int) (msg : Msg)
    (cache : Option (Str × Str)) (st : St) :
    (St × List Str × Option (Str × Str)) × Except Str IndexOutcome :=
  match indexCore o chat msg cache st.dirs st.files with
  | (((d, f), pubs, c), r) => (({ st with dirs := d, files := f }, pubs, c), r)

/-- A message carrying attachment metadata but no recognized tag: its text
is not directory metadata, its caption is not file metadata, and it has a
size or a non-blank file name (`indexer.rs` lines 31-52). -/
def isUntaggedAttachment (msg : Msg) : Bool :=
  (msg.text.bind (fun t => (parse_dir_message t).toOption)).isNone &&
  (msg.caption.bind (fun c => (parse_file_caption c).toOption)).isNone &&
  (msg.file_size.isSome ||
    (match msg.file_name with
     | some v => !(trimStr v).isEmpty
     | none => false))

/-- Number of FileEntry rows referencing one (chat, message) location. -/
def locCount (files : List FileRow) (chat msgId : Int) : Nat :=
  (files.filter (fun f => f.tg_chat_id == chat && f.tg_msg_id == msgId)).length

theorem locCount_any (files : List FileRow) (chat msgId : Int) :
    (files.any (fun f => f.tg_chat_id == chat && f.tg_msg_id == msgId)) =
      decide (0 < locCount files chat msgId) := by
  induction files with
  | nil => simp [locCount]
  | cons f rest ih =>
      by_cases h : (f.tg_chat_id == chat && f.tg_msg_id == msgId) = true
      · simp [locCount, List.filter_cons, h]
      · have h' : (f.tg_chat_id == chat && f.tg_msg_id == msgId) = false := by
          simp only [Bool.not_eq_true] at h
          exact h
        simp only [List.any_cons, h', Bool.false_or, locCount, List.filter_cons]
        rw [if_neg (by simp [h'])]
        exact ih

theorem importFinish_files_cases (o : ImportOracle) (chat : Int) (msg : Msg)
    (target : Str × Str) (dirs1 : List DirRow) (pubs : List Str)
    (cache1 : Option (Str × Str)) (files : List FileRow) :
    (importFinish o chat msg target dirs1 pubs cache1 files).1.1.2 = files ∨
    ∃ row, (importFinish o chat msg target dirs1 pubs cache1 files).1.1.2 =
        files ++ [row] ∧ row.tg_chat_id = chat ∧ row.tg_msg_id = msg.id := by
  simp only [importFinish]
  split
  · left; rfl
  · split
    · left; rfl
    · right
      exact ⟨_, rfl, rfl, rfl⟩

theorem import_files_cases (o : ImportOracle) (chat : Int) (msg : Msg)
    (cache : Option (Str × Str)) (dirs : List DirRow) (files : List FileRow) :
    (import_untagged o chat msg cache dirs files).1.1.2 = files ∨
    ∃ row, (import_untagged o chat msg cache dirs files).1.1.2 = files ++ [row] ∧
      row.tg_chat_id = chat ∧ row.tg_msg_id = msg.id := by
  unfold import_untagged
  split
  · left; rfl
  · cases hres : importResolveTarget o dirs cache (msg.caption.getD []) with
    | mk dp r =>
        obtain ⟨⟨dirs1, pubs⟩, cache1⟩ := dp
        cases r with
        | error e => left; rfl
        | ok target => exact importFinish_files_cases o chat msg target dirs1 pubs cache1 files

theorem import_guard_skip (o : ImportOracle) (chat : Int) (msg : Msg)
    (cache : Option (Str × Str)) (dirs : List DirRow) (files : List FileRow)
    (hg : files.any (fun f => f.tg_chat_id == chat && f.tg_msg_id == msg.id) = true) :
    import_untagged o chat msg cache dirs files =
      (((dirs, files), [], cache), .ok .Skipped) := by
  unfold import_untagged
  rw [if_pos hg]

theorem indexCore_untagged (o : ImportOracle) (chat : Int) (msg : Msg)
    (cache : Option (Str × Str)) (dirs : List DirRow) (files : List FileRow)
    (hU : isUntaggedAttachment msg = true) :
    indexCore o chat msg cache dirs files =
      (match import_untagged o chat msg cache dirs files with
       | (stp, .ok .Imported) => (stp, .ok { imported := true, file := true })
       | (stp, .ok .Skipped) => (stp, .ok { skipped := true })
       | (stp, .error e) => (stp, .error e)) := by
  simp only [isUntaggedAttachment, Bool.and_eq_true] at hU
  obtain ⟨⟨h1, h2⟩, h3⟩ := hU
  rw [Option.isNone_iff_eq_none] at h1 h2
  unfold indexCore
  rw [h1, h2]
  rw [show (msg.file_size.isSome ||
      (match msg.file_name with
       | some v => !(trimStr v).isEmpty
       | none => false)) = true from h3]
  rfl

theorem indexCore_files_eq_import (o : ImportOracle) (chat : Int) (msg : Msg)
    (cache : Option (Str × Str)) (dirs : List DirRow) (files : List FileRow)
    (hU : isUntaggedAttachment msg = true) :
    (indexCore o chat msg cache dirs files).1.1.2 =
      (import_untagged o chat msg cache dirs files).1.1.2 := by
  rw [indexCore_untagged o chat msg cache dirs files hU]
  cases hres : import_untagged o chat msg cache dirs files with
  | mk stp r =>
      cases r with
      | ok a => cases a <;> rfl
      | error e => rfl

theorem locCount_append_one (files : List FileRow) (row : FileRow)
    (chat msgId : Int) (hc : row.tg_chat_id = chat) (hm : row.tg_msg_id = msgId) :
    locCount (files ++ [row]) chat msgId = locCount files chat msgId + 1 := by
  simp [locCount, List.filter_append, hc, hm]

theorem indexCore_files_le_one (o : ImportOracle) (chat : Int) (msg : Msg)
    (cache : Option (Str × Str)) (dirs : List DirRow) (files : List FileRow)
    (hU : isUntaggedAttachment msg = true)
    (h0 : locCount files chat msg.id = 0) :
    locCount (indexCore o chat msg cache dirs files).1.1.2 chat msg.id ≤ 1 := by
  rw [indexCore_files_eq_import o chat msg cache dirs files hU]
  rcases import_files_cases o chat msg cache dirs files with h | ⟨row, hrow, hc, hm⟩
  · rw [h, h0]
    omega
  · rw [hrow, locCount_append_one files row chat msg.id hc hm, h0]

/-- Claim C4: for an untagged attachment message, (1) if a FileEntry row
already references the same (chat, message id) location, classification
skips the import and changes nothing; hence (2) indexing the same untagged
attachment twice, from a state with no row at that location, never leaves
two FileEntry rows referencing it. -/
theorem C4_auto_import_idempotent (o1 o2 : ImportOracle) (chat : Int)
    (msg : Msg) (cache : Option (Str × Str)) (dirs : List DirRow)
    (files : List FileRow) (hU : isUntaggedAttachment msg = true) :
    (files.any (fun f => f.tg_chat_id == chat && f.tg_msg_id == msg.id) = true →
      indexCore o1 chat msg cache dirs files =
        (((dirs, files), [], cache), .ok { skipped := true })) ∧
    (locCount files chat msg.id = 0 →
      locCount (indexCore o2 chat msg
        (indexCore o1 chat msg cache dirs files).1.2.2
        (indexCore o1 chat msg cache dirs files).1.1.1
        (indexCore o1 chat msg cache dirs files).1.1.2).1.1.2 chat msg.id ≤ 1) := by
  constructor
  · intro hg
    rw [indexCore_untagged o1 chat msg cache dirs files hU,
      import_guard_skip o1 chat msg cache dirs files hg]
  · intro h0
    have h1 := indexCore_files_le_one o1 chat msg cache dirs files hU h0
    set files1 := (indexCore o1 chat msg cache dirs files).1.1.2 with hf1
    set dirs1 := (indexCore o1 chat msg cache dirs files).1.1.1 with hd1
    set cache1 := (indexCore o1 chat msg cache dirs files).1.2.2 with hc1
    rcases Nat.lt_or_ge (locCount files1 chat msg.id) 1 with hlt | hge
    · have h00 : locCount files1 chat msg.id = 0 := by omega
      exact indexCore_files_le_one o2 chat msg cache1 dirs1 files1 hU h00
    · have hany : files1.any (fun f => f.tg_chat_id == chat && f.tg_msg_id == msg.id) = true := by
        rw [locCount_any]
        simp only [decide_eq_true_eq]
        omega
      rw [indexCore_untagged o2 chat msg cache1 dirs1 files1 hU,
        import_guard_skip o2 chat msg cache1 dirs1 files1 hany]
      show locCount files1 chat msg.id ≤ 1
      omega

/-- Untagged attachment message for the C4 witness. -/
def c4Msg : Msg :=
  { id := 10, date := 4, text := none, caption := none, file_size := some 7,
    file_name := some "a.txt".toList }

/-- A file row already referencing `c4Msg`'s location in chat 1. -/
def c4Files : List FileRow :=
  [{ id := ['f'], dir_id := ['d'], name := "a.txt".toList, size := 7,
     hash := ['h'], tg_chat_id := 1, tg_msg_id := 10, created_at := 0,
     is_broken := false }]

/-- Oracle for the C4 witness. -/
def c4Oracle : ImportOracle :=
  { freshDirId := "01HD".toList, freshFileId := "01HF".toList,
    importHash := "1a2b3c4d".toList, sendDirResult := .ok 5,
    editCap1 := .ok (), editCap2 := .ok (), existsChecks := [.ok true],
    now := 9 }

/-- Witness for `C4_auto_import_idempotent`: with a row already at (1, 10)
the message is skipped unchanged; from an empty table, indexing the message
twice leaves at most one row at (1, 10). -/
theorem C4_auto_import_idempotent_witness :
    indexCore c4Oracle 1 c4Msg none [] c4Files =
      ((([], c4Files), [], none), .ok { skipped := true }) ∧
    locCount (indexCore c4Oracle 1 c4Msg
      (indexCore c4Oracle 1 c4Msg none [] []).1.2.2
      (indexCore c4Oracle 1 c4Msg none [] []).1.1.1
      (indexCore c4Oracle 1 c4Msg none [] []).1.1.2).1.1.2 1 c4Msg.id ≤ 1 :=
  ⟨(C4_auto_import_idempotent c4Oracle c4Oracle 1 c4Msg none [] c4Files
      (by decide)).1 (by decide),
   (C4_auto_import_idempotent c4Oracle c4Oracle 1 c4Msg none [] []
      (by decide)).2 (by decide)⟩

/-- Number of directory rows with a given id. -/
def dirCountId (dirs : List DirRow) (id : Str) : Nat :=
  (dirs.filter (fun r => r.id == id)).length

theorem dirAny_count (dirs : List DirRow) (id : Str) :
    (dirs.any (fun r => r.id == id)) = decide (0 < dirCountId dirs id) := by
  induction dirs with
  | nil => simp [dirCountId]
  | cons r rest ih =>
      by_cases h : (r.id == id) = true
      · simp [dirCountId, List.filter_cons, h]
      · have h' : (r.id == id) = false := by
          simp only [Bool.not_eq_true] at h
          exact h
        simp only [List.any_cons, h', Bool.false_or, dirCountId, List.filter_cons]
        rw [if_neg (by simp [h'])]
        exact ih

theorem dirCountId_append_row (dirs : List DirRow) (row : DirRow) (id : Str) :
    dirCountId (dirs ++ [row]) id =
      dirCountId dirs id + (if (row.id == id) = true then 1 else 0) := by
  by_cases h : (row.id == id) = true
  · simp [dirCountId, List.filter_append, h]
  · have h' : (row.id == id) = false := by
      simp only [Bool.not_eq_true] at h
      exact h
    simp [dirCountId, List.filter_append, h']

theorem ensurePlaceholder_count (dirs : List DirRow) (pid : Str) (date : Int)
    (id : Str) (h : 0 < dirCountId dirs id) :
    dirCountId (ensureDirPlaceholder dirs pid date) id = dirCountId dirs id := by
  unfold ensureDirPlaceholder
  split
  · rfl
  · split
    · rfl
    · rename_i hblank hany
      rw [dirCountId_append_row]
      have hpid : ¬ (pid == id) = true := by
        intro he
        have : pid = id := by simpa using he
        subst this
        rw [dirAny_count] at hany
        simp only [decide_eq_true_eq] at hany
        omega
      rw [if_neg (by simpa using hpid)]
      omega

theorem dirCountId_map_id_preserving (dirs : List DirRow) (f : DirRow → DirRow)
    (hf : ∀ r, (f r).id = r.id) (id : Str) :
    dirCountId (dirs.map f) id = dirCountId dirs id := by
  induction dirs with
  | nil => rfl
  | cons r rest ih =>
      simp only [List.map_cons, dirCountId, List.filter_cons, hf r]
      by_cases h : (r.id == id) = true
      · rw [if_pos h, if_pos h]
        simp only [List.length_cons]
        have : dirCountId (rest.map f) id = dirCountId rest id := ih
        simp only [dirCountId] at this
        omega
      · rw [if_neg h, if_neg h]
        exact ih

theorem upsertDirRow_map_form (dirs : List DirRow) (id : Str)
    (parentId : Option Str) (name : Str) (msgId : Option Int) (date : Int)
    (hany : (dirs.any (fun r => r.id == id)) = true) :
    upsertDirRow dirs id parentId name msgId date =
      dirs.map (fun r => if r.id == id then
        { r with parent_id := parentId, name := name, tg_msg_id := msgId, updated_at := date }
        else r) := by
  unfold upsertDirRow
  rw [if_pos hany]

theorem upsert_dir_existing (dirs : List DirRow) (meta : DirMeta)
    (msgId date : Int) (h : 0 < dirCountId dirs meta.dir_id) :
    dirCountId (upsert_dir_model dirs meta msgId date) meta.dir_id =
      dirCountId dirs meta.dir_id ∧
    ∀ r ∈ upsert_dir_model dirs meta msgId date, r.id = meta.dir_id →
      r.name = meta.name ∧ r.parent_id = dirParentOf meta ∧
      r.tg_msg_id = some msgId := by
  have hcore : ∀ dirs1 : List DirRow,
      dirCountId dirs1 meta.dir_id = dirCountId dirs meta.dir_id →
      dirCountId (upsertDirRow dirs1 meta.dir_id (dirParentOf meta) meta.name
        (some msgId) date) meta.dir_id = dirCountId dirs meta.dir_id ∧
      ∀ r ∈ upsertDirRow dirs1 meta.dir_id (dirParentOf meta) meta.name
        (some msgId) date, r.id = meta.dir_id →
        r.name = meta.name ∧ r.parent_id = dirParentOf meta ∧
        r.tg_msg_id = some msgId := by
    intro dirs1 hc1
    have hany : (dirs1.any (fun r => r.id == meta.dir_id)) = true := by
      rw [dirAny_count, hc1]
      simp only [decide_eq_true_eq]
      omega
    rw [upsertDirRow_map_form dirs1 meta.dir_id (dirParentOf meta) meta.name
      (some msgId) date hany]
    constructor
    · rw [dirCountId_map_id_preserving]
      · exact hc1
      · intro r
        by_cases hid : (r.id == meta.dir_id) = true
        · rw [if_pos hid]
        · rw [if_neg hid]
    · intro r hr hid
      rw [List.mem_map] at hr
      obtain ⟨r0, hr0, heq⟩ := hr
      by_cases h0 : (r0.id == meta.dir_id) = true
      · rw [if_pos h0] at heq
        rw [← heq]
        exact ⟨rfl, rfl, rfl⟩
      · rw [if_neg h0] at heq
        rw [← heq] at hid
        exact absurd (by simp [hid]) h0
  unfold upsert_dir_model
  cases hp : dirParentOf meta with
  | none =>
      have hc := hcore dirs rfl
      rw [hp] at hc
      exact hc
  | some pid =>
      have hc := hcore (ensureDirPlaceholder dirs pid date)
        (ensurePlaceholder_count dirs pid date meta.dir_id h)
      rw [hp] at hc
      exact hc

theorem indexCore_file_meta (o : ImportOracle) (chat : Int) (msg : Msg)
    (cache : Option (Str × Str)) (dirs : List DirRow) (files : List FileRow)
    (meta : FileMeta) (c : Str)
    (hT : msg.text.bind (fun t => (parse_dir_message t).toOption) = none)
    (hC : msg.caption = some c) (hP : parse_file_caption c = .ok meta) :
    indexCore o chat msg cache dirs files =
      (((ensureDirPlaceholder dirs meta.dir_id msg.date,
         upsertFileRow files meta chat msg.id msg.date (msg.file_size.getD 0)),
        [], cache), .ok { file := true }) := by
  unfold indexCore
  rw [hT]
  rw [show msg.caption.bind (fun x => (parse_file_caption x).toOption) = some meta
    from by rw [hC]; simp [hP, Except.toOption]]
  rfl

theorem indexCore_dir_meta (o : ImportOracle) (chat : Int) (msg : Msg)
    (cache : Option (Str × Str)) (dirs : List DirRow) (files : List FileRow)
    (dmeta : DirMeta) (t : Str)
    (hT : msg.text = some t) (hPd : parse_dir_message t = .ok dmeta) :
    indexCore o chat msg cache dirs files =
      (((upsert_dir_model dirs dmeta msg.id msg.date, files), [], cache),
       .ok { dir := true }) := by
  unfold indexCore
  rw [show msg.text.bind (fun x => (parse_dir_message x).toOption) = some dmeta
    from by rw [hT]; simp [hPd, Except.toOption]]

/-- Claim C5 (amended with the non-blank condition): indexing a
file-metadata message whose non-blank dir_id has no local row creates
exactly one placeholder DirectoryEntry with that id; when a row with that id
already exists (e.g. a second file for the same dir_id) no additional row is
created; and indexing a directory-metadata message whose id already has a
row overwrites that row's name/parent/message ref in place without
duplicating it. -/
theorem C5_placeholder_resolution (o : ImportOracle) (chat : Int) (msg : Msg)
    (cache : Option (Str × Str)) (dirs : List DirRow) (files : List FileRow)
    (meta : FileMeta) (c : Str)
    (hT : msg.text.bind (fun t => (parse_dir_message t).toOption) = none)
    (hC : msg.caption = some c)
    (hP : parse_file_caption c = Except.ok meta)
    (hnb : (trimStr meta.dir_id).isEmpty = false) :
    (dirCountId dirs meta.dir_id = 0 →
      (indexCore o chat msg cache dirs files).1.1.1 =
        dirs ++ [{ id := meta.dir_id, parent_id := none, name := "Неизвестная папка".toList, tg_msg_id := none, updated_at := msg.date, is_broken := false }] ∧
      dirCountId (indexCore o chat msg cache dirs files).1.1.1 meta.dir_id = 1) ∧
    (0 < dirCountId dirs meta.dir_id →
      (indexCore o chat msg cache dirs files).1.1.1 = dirs) ∧
    (∀ (o2 : ImportOracle) (cache2 : Option (Str × Str)) (msg2 : Msg)
       (t : Str) (dmeta : DirMeta) (dirs2 : List DirRow) (files2 : List FileRow),
      msg2.text = some t → parse_dir_message t = Except.ok dmeta →
      0 < dirCountId dirs2 dmeta.dir_id →
      dirCountId (indexCore o2 chat msg2 cache2 dirs2 files2).1.1.1 dmeta.dir_id =
        dirCountId dirs2 dmeta.dir_id ∧
      ∀ r ∈ (indexCore o2 chat msg2 cache2 dirs2 files2).1.1.1,
        r.id = dmeta.dir_id → r.name = dmeta.name ∧
        r.parent_id = dirParentOf dmeta ∧ r.tg_msg_id = some msg2.id) := by
  refine ⟨?_, ?_, ?_⟩
  · intro h0
    rw [indexCore_file_meta o chat msg cache dirs files meta c hT hC hP]
    have hany : (dirs.any (fun r => r.id == meta.dir_id)) = false := by
      rw [dirAny_count, h0]
      simp
    have he : ensureDirPlaceholder dirs meta.dir_id msg.date =
        dirs ++ [{ id := meta.dir_id, parent_id := none, name := "Неизвестная папка".toList, tg_msg_id := none, updated_at := msg.date, is_broken := false }] := by
      unfold ensureDirPlaceholder
      rw [if_neg (by simp [hnb]), if_neg (by simp [hany])]
    refine ⟨he, ?_⟩
    show dirCountId (ensureDirPlaceholder dirs meta.dir_id msg.date) meta.dir_id = 1
    rw [he, dirCountId_append_row, if_pos (by simp), h0]
  · intro hpos
    rw [indexCore_file_meta o chat msg cache dirs files meta c hT hC hP]
    show ensureDirPlaceholder dirs meta.dir_id msg.date = dirs
    unfold ensureDirPlaceholder
    rw [if_neg (by simp [hnb])]
    rw [if_pos (by rw [dirAny_count]; simp only [decide_eq_true_eq]; omega)]
  · intro o2 cache2 msg2 t dmeta dirs2 files2 hT2 hP2 hpos
    rw [indexCore_dir_meta o2 chat msg2 cache2 dirs2 files2 dmeta t hT2 hP2]
    exact upsert_dir_existing dirs2 dmeta msg2.id msg2.date hpos

/-- File caption with a blank dir_id (`d=`), which still decodes. -/
def c5BlankCaption : Str := "#ocltg #v1 #file d= f=01HF n=a h=1a2b3c4d".toList

/-- Message carrying `c5BlankCaption`. -/
def c5BlankMsg : Msg :=
  { id := 21, date := 2, text := none, caption := some c5BlankCaption,
    file_size := some 3, file_name := none }

/-- Claim C5 (as stated, refuted): a file-metadata message whose dir_id is
blank references no locally known directory, yet indexing it creates NO
placeholder DirectoryEntry (ensure_dir_placeholder returns early on a blank
id) while still inserting the file row. -/
theorem C5_placeholder_counterexample :
    parse_file_caption c5BlankCaption =
      Except.ok { dir_id := [], file_id := "01HF".toList, name := ['a'], hash_short := "1a2b3c4d".toList } ∧
    (indexCore c4Oracle 1 c5BlankMsg none [] []).1.1.1 = [] ∧
    (indexCore c4Oracle 1 c5BlankMsg none [] []).1.1.2.length = 1 := by
  decide

/-- File caption naming the unknown directory `01HD`. -/
def c5GoodCaption : Str := "#ocltg #v1 #file d=01HD f=01HF n=a h=1a2b3c4d".toList

/-- Message carrying `c5GoodCaption`. -/
def c5GoodMsg : Msg :=
  { id := 22, date := 3, text := none, caption := some c5GoodCaption,
    file_size := some 3, file_name := none }

/-- The metadata record of `c5GoodCaption`. -/
def c5Meta : FileMeta :=
  { dir_id := "01HD".toList, file_id := "01HF".toList, name := ['a'],
    hash_short := "1a2b3c4d".toList }

/-- Witness for `C5_placeholder_resolution`: indexing `c5GoodMsg` on an
empty store creates exactly one placeholder directory `01HD`. -/
theorem C5_placeholder_resolution_witness :
    (indexCore c4Oracle 1 c5GoodMsg none [] []).1.1.1 =
      [] ++ [{ id := "01HD".toList, parent_id := none, name := "Неизвестная папка".toList, tg_msg_id := none, updated_at := c5GoodMsg.date, is_broken := false }] ∧
    dirCountId (indexCore c4Oracle 1 c5GoodMsg none [] []).1.1.1 "01HD".toList = 1 :=
  (C5_placeholder_resolution c4Oracle 1 c5GoodMsg none [] [] c5Meta
    c5GoodCaption rfl rfl (by decide) (by decide)).1 (by decide)

/-! ### File mutator (`files.rs`) -/

/-- `files.rs` lines 652-658 (`fetch_dir_name`). -/
def fetchDirName (dirs : List DirRow) (dirId : Str) : Option Str :=
  (findDir dirs dirId).map (fun r => r.name)

/-- The `INSERT ... ON CONFLICT(id) DO UPDATE` of `upload_file`
(`files.rs` lines 190-204): on conflict it updates dir, name, size, hash,
message refs and clears `is_broken`, but not `created_at`. -/
def uploadUpsertRow (files : List FileRow) (new : FileRow) : List FileRow :=
  if files.any (fun f => f.id == new.id) then
    files.map (fun f => if f.id == new.id then
      { f with dir_id := new.dir_id, name := new.name, size := new.size, hash := new.hash, tg_chat_id := new.tg_chat_id, tg_msg_id := new.tg_msg_id, is_broken := false }
      else f)
  else files ++ [new]

/-- Values consumed by one `upload_file` call: the fresh ULID, the local
file's hash/name/size (filesystem reads, not re-modelled), whether the
source path is a regular file, the `send_file` result, and the clock. -/
structure UploadOracle where
  freshId : Str
  hashShort : Str
  fileOk : Bool
  fileName : Str
  size : Int
  sendResult : Except Str (Int × Int)
  now : Int
deriving DecidableEq, Repr

/-- `files.rs` lines 157-207 (`upload_file`): validate directory and source
file, publish with the encoded caption (with folder hashtag), then upsert
the row.  The second output component lists published captions. -/
def upload_file_model (o : UploadOracle) (dirs : List DirRow)
    (files : List FileRow) ( _chat : Int) (dirId : Str) :
    (List FileRow × List Str) × Except Str Str :=
  if !dirExists dirs dirId then ((files, []), .error "Папка не найдена".toList)
  else if !o.fileOk then ((files, []), .error "Файл не найден".toList)
  else
    let caption := make_file_caption_with_tag
      { dir_id := dirId, file_id := o.freshId, name := o.fileName,
        hash_short := o.hashShort } (fetchDirName dirs dirId)
    match o.sendResult with
    | .error e => ((files, []), .error e)
    | .ok (upChat, upMsg) =>
        ((uploadUpsertRow files { id := o.freshId, dir_id := dirId, name := o.fileName, size := o.size, hash := o.hashShort, tg_chat_id := upChat, tg_msg_id := upMsg, created_at := o.now, is_broken := false },
          [caption]), .ok o.freshId)

theorem map_created_at_of_update (files : List FileRow) (g : FileRow → FileRow)
    (hg : ∀ f, (g f).created_at = f.created_at) :
    (files.map g).map (fun f => f.created_at) =
      files.map (fun f => f.created_at) := by
  induction files with
  | nil => rfl
  | cons f rest ih => simp only [List.map_cons, hg f, ih]

/-- Claim C10: when a file upsert hits the id conflict (the row already
exists), both the indexer's `upsert_file` and the upload path's on-conflict
update leave every row's `created_at` unchanged while updating dir, name,
size, hash and the chat/message refs. -/
theorem C10_created_at_frame (files : List FileRow) (meta : FileMeta)
    (chat msgId date size : Int) (o : UploadOracle) (dirs : List DirRow)
    (upChat upMsg sChat : Int) (dirId : Str) :
    (files.any (fun f => f.id == meta.file_id) = true →
      (upsertFileRow files meta chat msgId date size).map (fun f => f.created_at) =
        files.map (fun f => f.created_at) ∧
      ∀ f ∈ upsertFileRow files meta chat msgId date size, f.id = meta.file_id →
        f.dir_id = meta.dir_id ∧ f.name = meta.name ∧ f.size = size ∧
        f.hash = meta.hash_short ∧ f.tg_chat_id = chat ∧ f.tg_msg_id = msgId) ∧
    (dirExists dirs dirId = true → o.fileOk = true →
      o.sendResult = Except.ok (upChat, upMsg) →
      files.any (fun f => f.id == o.freshId) = true →
      (upload_file_model o dirs files sChat dirId).1.1.map (fun f => f.created_at) =
        files.map (fun f => f.created_at)) := by
  constructor
  · intro hex
    unfold upsertFileRow
    rw [if_pos hex]
    constructor
    · apply map_created_at_of_update
      intro f
      by_cases h : (f.id == meta.file_id) = true
      · rw [if_pos h]
      · rw [if_neg h]
    · intro f hf hid
      rw [List.mem_map] at hf
      obtain ⟨f0, hf0, heq⟩ := hf
      by_cases h0 : (f0.id == meta.file_id) = true
      · rw [if_pos h0] at heq
        rw [← heq]
        exact ⟨rfl, rfl, rfl, rfl, rfl, rfl⟩
      · rw [if_neg h0] at heq
        rw [← heq] at hid
        exact absurd (by simp [hid]) h0
  · intro hd hf hs hex
    unfold upload_file_model
    rw [show (!dirExists dirs dirId) = false by simp [hd], if_neg (by simp)]
    rw [show (!o.fileOk) = false by simp [hf], if_neg (by simp)]
    rw [hs]
    show (uploadUpsertRow files _).map (fun f => f.created_at) =
      files.map (fun f => f.created_at)
    unfold uploadUpsertRow
    rw [if_pos hex]
    apply map_created_at_of_update
    intro f
    by_cases h : (f.id == o.freshId) = true
    · rw [if_pos h]
    · rw [if_neg h]

/-- Upload oracle for the C10 witness, colliding with the existing id. -/
def c10Oracle : UploadOracle :=
  { freshId := ['f'], hashShort := "9e8f".toList, fileOk := true,
    fileName := "b.txt".toList, size := 12, sendResult := .ok (7, 1),
    now := 99 }

/-- Witness for `C10_created_at_frame` on `c8Files` (one row with id `f`,
created_at 0). -/
theorem C10_created_at_frame_witness :
    (upsertFileRow c8Files
      { dir_id := ['B'], file_id := ['f'], name := ['y'], hash_short := ['k'] }
      2 8 50 6).map (fun f => f.created_at) =
      c8Files.map (fun f => f.created_at) ∧
    (upload_file_model c10Oracle c6Dirs c8Files 7 ['B']).1.1.map
      (fun f => f.created_at) = c8Files.map (fun f => f.created_at) :=
  ⟨((C10_created_at_frame c8Files
      { dir_id := ['B'], file_id := ['f'], name := ['y'], hash_short := ['k'] }
      2 8 50 6 c10Oracle c6Dirs 7 1 7 ['B']).1 (by decide)).1,
   (C10_created_at_frame c8Files
      { dir_id := ['B'], file_id := ['f'], name := ['y'], hash_short := ['k'] }
      2 8 50 6 c10Oracle c6Dirs 7 1 7 ['B']).2 (by decide) (by decide) (by decide)
      (by decide)⟩

/-! ### Reconciler (`reconcile.rs`) -/

/-- Per-row effect of the `mark_broken_dirs` loop (`reconcile.rs` lines
156-177): rows selected by `tg_msg_id IS NOT NULL AND tg_msg_id >= min`
(and the dead `msg_id <= 0` guard) end with `is_broken` equal to "absent
from the seen set"; the conditional UPDATEs only fire on flips, but the
final value is the same either way, and `id` is the primary key. -/
def markDirRow (minId : Int) (seen : List Int) (r : DirRow) : DirRow :=
  match r.tg_msg_id with
  | some m =>
      if minId ≤ m ∧ 0 < m then { r with is_broken := !(seen.contains m) } else r
  | none => r

/-- Rows the dir loop flips from clean to broken. -/
def dirMarkedPred (minId : Int) (seen : List Int) (r : DirRow) : Bool :=
  match r.tg_msg_id with
  | some m => decide (minId ≤ m ∧ 0 < m) && !(seen.contains m) && !r.is_broken
  | none => false

/-- Rows the dir loop flips from broken to clean. -/
def dirClearedPred (minId : Int) (seen : List Int) (r : DirRow) : Bool :=
  match r.tg_msg_id with
  | some m => decide (minId ≤ m ∧ 0 < m) && seen.contains m && r.is_broken
  | none => false

/-- `reconcile.rs` lines 141-180 (`mark_broken_dirs`): new table plus the
(marked, cleared) counters. -/
def markBrokenDirs (dirs : List DirRow) (minId : Int) (seen : List Int) :
    List DirRow × Nat × Nat :=
  (dirs.map (markDirRow minId seen),
   (dirs.filter (dirMarkedPred minId seen)).length,
   (dirs.filter (dirClearedPred minId seen)).length)

/-- Per-row effect of the `mark_broken_files` loop (`reconcile.rs` lines
199-220); the query also filters on `tg_chat_id = ?`. -/
def markFileRow (chat minId : Int) (seen : List Int) (f : FileRow) : FileRow :=
  if f.tg_chat_id = chat ∧ minId ≤ f.tg_msg_id ∧ 0 < f.tg_msg_id then
    { f with is_broken := !(seen.contains f.tg_msg_id) }
  else f

/-- Rows the file loop flips from clean to broken. -/
def fileMarkedPred (chat minId : Int) (seen : List Int) (f : FileRow) : Bool :=
  decide (f.tg_chat_id = chat ∧ minId ≤ f.tg_msg_id ∧ 0 < f.tg_msg_id) &&
    !(seen.contains f.tg_msg_id) && !f.is_broken

/-- Rows the file loop flips from broken to clean. -/
def fileClearedPred (chat minId : Int) (seen : List Int) (f : FileRow) : Bool :=
  decide (f.tg_chat_id = chat ∧ minId ≤ f.tg_msg_id ∧ 0 < f.tg_msg_id) &&
    seen.contains f.tg_msg_id && f.is_broken

/-- `reconcile.rs` lines 182-223 (`mark_broken_files`). -/
def markBrokenFiles (files : List FileRow) (chat minId : Int)
    (seen : List Int) : List FileRow × Nat × Nat :=
  (files.map (markFileRow chat minId seen),
   (files.filter (fileMarkedPred chat minId seen)).length,
   (files.filter (fileClearedPred chat minId seen)).length)

/-- `iter().map(id).min().unwrap_or(0)`. -/
def listMinInt : List Int → Int
  | [] => 0
  | x :: xs => xs.foldl min x

/-- `iter().map(id).max().unwrap_or(0)`. -/
def listMaxInt : List Int → Int
  | [] => 0
  | x :: xs => xs.foldl max x

/-- The scan loop of `reconcile_recent` (`reconcile.rs` lines 53-66): index
each fetched message, collecting the message ids recognized as directories
and as files; the `?` on `index_storage_message` aborts the loop on the
first indexing error. -/
def reconcileScan (chat : Int) :
    List (Msg × ImportOracle) → St → Option (Str × Str) → List Int →
      List Int → (St × List Int × List Int) × Option Str
  | [], st, _, seenD, seenF => ((st, seenD, seenF), none)
  | (msg, o) :: rest, st, cache, seenD, seenF =>
      match index_storage_message_model o chat msg cache st with
      | ((st1, _, cache1), .ok out) =>
          reconcileScan chat rest st1 cache1
            (if out.dir then seenD ++ [msg.id] else seenD)
            (if out.file then seenF ++ [msg.id] else seenF)
      | ((st1, _, _), .error e) => ((st1, seenD, seenF), some e)

/-- Counters of `ReconcileOutcome` that the settled claims mention. -/
structure ReconcileStats where
  markedDirs : Nat
  clearedDirs : Nat
  markedFiles : Nat
  clearedFiles : Nat
  minMessageId : Int
  maxMessageId : Int
deriving DecidableEq, Repr

/-- `reconcile.rs` lines 23-105 (`reconcile_recent`).  The `msgs` argument
is the window produced by the transport pagination (`fetch_recent_messages`)
whose `limit.max(1)` cap lives outside the store; the SyncState watermark is
modelled by its parsed value (`get_sync(..).parse().unwrap_or(0)`). -/
def reconcile_recent_model (chat : Int) (msgs : List (Msg × ImportOracle))
    (st : St) : St × Except Str ReconcileStats :=
  if msgs.isEmpty then (st, .ok ⟨0, 0, 0, 0, 0, 0⟩)
  else
    match reconcileScan chat msgs st none [] [] with
    | ((st1, _, _), some e) => (st1, .error e)
    | ((st1, seenD, seenF), none) =>
        let minId := listMinInt (msgs.map (fun p => p.1.id))
        let maxId := listMaxInt (msgs.map (fun p => p.1.id))
        let (dirs2, md, cd) :=
          if 0 < minId then markBrokenDirs st1.dirs minId seenD
          else (st1.dirs, 0, 0)
        let (files2, mf, cf) :=
          if 0 < minId then markBrokenFiles st1.files chat minId seenF
          else (st1.files, 0, 0)
        let last :=
          if 0 < maxId then
            (if st1.lastMessageId.getD 0 < maxId then some maxId
             else st1.lastMessageId)
          else st1.lastMessageId
        ({ dirs := dirs2, files := files2, lastMessageId := last,
           reconcileDone := true },
         .ok ⟨md, cd, mf, cf, minId, maxId⟩)

theorem index_sync_frame (o : ImportOracle) (chat : Int) (msg : Msg)
    (cache : Option (Str × Str)) (st : St) :
    (index_storage_message_model o chat msg cache st).1.1.lastMessageId =
      st.lastMessageId ∧
    (index_storage_message_model o chat msg cache st).1.1.reconcileDone =
      st.reconcileDone := by
  unfold index_storage_message_model
  cases h : indexCore o chat msg cache st.dirs st.files with
  | mk a r =>
      obtain ⟨⟨d, f⟩, pubs, c⟩ := a
      exact ⟨rfl, rfl⟩

theorem scan_sync_frame (chat : Int) (msgs : List (Msg × ImportOracle)) :
    ∀ (st : St) (cache : Option (Str × Str)) (sD sF : List Int),
    (reconcileScan chat msgs st cache sD sF).1.1.lastMessageId =
      st.lastMessageId ∧
    (reconcileScan chat msgs st cache sD sF).1.1.reconcileDone =
      st.reconcileDone := by
  induction msgs with
  | nil => intro st cache sD sF; exact ⟨rfl, rfl⟩
  | cons p rest ih =>
      intro st cache sD sF
      obtain ⟨msg, o⟩ := p
      have hfr := index_sync_frame o chat msg cache st
      rw [reconcileScan]
      cases h : index_storage_message_model o chat msg cache st with
      | mk a r =>
          obtain ⟨st1, pubs, cache1⟩ := a
          rw [h] at hfr
          cases r with
          | ok out =>
              have hRest := ih st1 cache1
                (if out.dir then sD ++ [msg.id] else sD)
                (if out.file then sF ++ [msg.id] else sF)
              exact ⟨hRest.1.trans hfr.1, hRest.2.trans hfr.2⟩
          | error e => exact ⟨hfr.1, hfr.2⟩

/-- Claim C2 (amended): an indexing error on any message of the window
aborts `reconcile_recent` — the scan stops at the failing message, the
whole call returns that error, and neither the broken-flag pass nor the
watermark advance nor the reconcile-done marker runs. -/
theorem C2_scan_abort_amended (chat : Int) (msgs : List (Msg × ImportOracle))
    (st stR : St) (sD sF : List Int) (e : Str)
    (h : reconcileScan chat msgs st none [] [] = ((stR, sD, sF), some e)) :
    reconcile_recent_model chat msgs st = (stR, Except.error e) ∧
    stR.lastMessageId = st.lastMessageId ∧
    stR.reconcileDone = st.reconcileDone := by
  cases msgs with
  | nil =>
      rw [reconcileScan] at h
      simp at h
  | cons p rest =>
      refine ⟨?_, ?_, ?_⟩
      · unfold reconcile_recent_model
        rw [if_neg (by simp), h]
      · have hs := (scan_sync_frame chat (p :: rest) st none [] []).1
        rw [h] at hs
        exact hs
      · have hs := (scan_sync_frame chat (p :: rest) st none [] []).2
        rw [h] at hs
        exact hs

/-- An untagged attachment whose import will need a directory creation. -/
def c2Msg1 : Msg :=
  { id := 5, date := 1, text := none, caption := none, file_size := some 10,
    file_name := none }

/-- A valid file-metadata message that follows it in the window. -/
def c2Msg2 : Msg :=
  { id := 6, date := 1, text := none, caption := some c5GoodCaption,
    file_size := some 3, file_name := none }

/-- Oracle whose `send_dir_message` fails with "net down". -/
def c2FailOracle : ImportOracle :=
  { freshDirId := "01HU".toList, freshFileId := "01HV".toList,
    importHash := "1a2b3c4d".toList, sendDirResult := .error "net down".toList,
    editCap1 := .ok (), editCap2 := .ok (), existsChecks := [.ok true],
    now := 7 }

/-- The two-message window: the first message's indexing fails. -/
def c2Msgs : List (Msg × ImportOracle) :=
  [(c2Msg1, c2FailOracle), (c2Msg2, c4Oracle)]

/-- The empty starting store. -/
def c2St0 : St :=
  { dirs := [], files := [], lastMessageId := none, reconcileDone := false }

/-- Claim C2 (as stated, refuted): in the window `c2Msgs` the first
message's indexing fails (its auto-import tries to create the unassigned
directory and the transport send fails), and `reconcile_recent` returns
that error instead of counting it and continuing: the second (valid
file-metadata) message is never indexed, no broken-flag pass runs, and the
watermark is not advanced. -/
theorem C2_containment_counterexample :
    (reconcile_recent_model 1 c2Msgs c2St0).2 =
      Except.error "net down".toList ∧
    (reconcile_recent_model 1 c2Msgs c2St0).1.files = [] ∧
    (reconcile_recent_model 1 c2Msgs c2St0).1.lastMessageId = none ∧
    (reconcile_recent_model 1 c2Msgs c2St0).1.reconcileDone = false := by
  decide

/-- The store state at which the `c2Msgs` scan aborts: the unassigned
directory row was created locally before the failing publish. -/
def c2StR : St :=
  { dirs := [{ id := "01HU".toList, parent_id := none, name := "Неразобранное".toList, tg_msg_id := none, updated_at := 7, is_broken := false }],
    files := [], lastMessageId := none, reconcileDone := false }

/-- Witness for `C2_scan_abort_amended` on the concrete window. -/
theorem C2_scan_abort_amended_witness :
    reconcile_recent_model 1 c2Msgs c2St0 =
      (c2StR, Except.error "net down".toList) ∧
    c2StR.lastMessageId = c2St0.lastMessageId ∧
    c2StR.reconcileDone = c2St0.reconcileDone :=
  C2_scan_abort_amended 1 c2Msgs c2St0 c2StR [] [] "net down".toList (by decide)

theorem contains_mem_int (l : List Int) (m : Int) :
    l.contains m = true ↔ m ∈ l := by
  induction l with
  | nil => simp
  | cons x xs ih =>
      simp only [List.contains_cons, Bool.or_eq_true, List.mem_cons]
      constructor
      · intro h
        rcases h with h | h
        · left
          have : m = x := by simpa using h
          exact this
        · right; exact ih.mp h
      · intro h
        rcases h with h | h
        · left; simp [h]
        · right; exact ih.mpr h

theorem map_pointwise_congr {α β : Type} (l : List α) (g : α → α)
    (pr : α → β) (hg : ∀ x, pr (g x) = pr x) :
    (l.map g).map pr = l.map pr := by
  induction l with
  | nil => rfl
  | cons x xs ih => simp only [List.map_cons, hg x, ih]

theorem map_idem_of_pointwise {α : Type} (l : List α) (g : α → α)
    (hg : ∀ x, g (g x) = g x) : (l.map g).map g = l.map g := by
  induction l with
  | nil => rfl
  | cons x xs ih => simp only [List.map_cons, hg x, ih]

theorem filter_map_all_false {α : Type} (l : List α) (g : α → α)
    (p : α → Bool) (hp : ∀ x, p (g x) = false) : (l.map g).filter p = [] := by
  induction l with
  | nil => rfl
  | cons x xs ih => simp [List.filter_cons, hp x, ih]

theorem markDirRow_id (minId : Int) (seen : List Int) (r : DirRow) :
    (markDirRow minId seen r).id = r.id := by
  unfold markDirRow
  cases r.tg_msg_id with
  | none => rfl
  | some m =>
      by_cases h : minId ≤ m ∧ 0 < m <;> simp [h]

theorem markFileRow_id (chat minId : Int) (seen : List Int) (f : FileRow) :
    (markFileRow chat minId seen f).id = f.id := by
  unfold markFileRow
  by_cases h : f.tg_chat_id = chat ∧ minId ≤ f.tg_msg_id ∧ 0 < f.tg_msg_id <;>
    simp [h]

theorem markDirRow_idem (minId : Int) (seen : List Int) (r : DirRow) :
    markDirRow minId seen (markDirRow minId seen r) = markDirRow minId seen r := by
  unfold markDirRow
  cases hm : r.tg_msg_id with
  | none => simp [hm]
  | some m =>
      by_cases h : minId ≤ m ∧ 0 < m
      · simp [hm, h]
      · simp [hm, h]

theorem markFileRow_idem (chat minId : Int) (seen : List Int) (f : FileRow) :
    markFileRow chat minId seen (markFileRow chat minId seen f) =
      markFileRow chat minId seen f := by
  unfold markFileRow
  by_cases h : f.tg_chat_id = chat ∧ minId ≤ f.tg_msg_id ∧ 0 < f.tg_msg_id <;>
    simp [h]

theorem markDirRow_no_flip (minId : Int) (seen : List Int) (r : DirRow) :
    dirMarkedPred minId seen (markDirRow minId seen r) = false ∧
    dirClearedPred minId seen (markDirRow minId seen r) = false := by
  unfold markDirRow dirMarkedPred dirClearedPred
  cases hm : r.tg_msg_id with
  | none => simp [hm]
  | some m =>
      by_cases h : minId ≤ m ∧ 0 < m
      · by_cases hc : seen.contains m = true <;> simp [hm, h, hc]
      · simp [hm, h]

theorem markFileRow_no_flip (chat minId : Int) (seen : List Int) (f : FileRow) :
    fileMarkedPred chat minId seen (markFileRow chat minId seen f) = false ∧
    fileClearedPred chat minId seen (markFileRow chat minId seen f) = false := by
  unfold markFileRow fileMarkedPred fileClearedPred
  by_cases h : f.tg_chat_id = chat ∧ minId ≤ f.tg_msg_id ∧ 0 < f.tg_msg_id
  · by_cases hc : seen.contains f.tg_msg_id = true <;> simp [hc, h]
  · simp [h]

/-- Claim C3 (amended): after the broken-flag pass of a window with positive
minimum id, every directory row backed by a message id ≥ the minimum has
`is_broken` set iff that id is absent from the seen-directories set, and
every file row backed by the STORAGE chat with message id ≥ the minimum has
`is_broken` iff absent from the seen-files set (file rows backed by a
different chat are not touched — see the counterexample); no row is deleted;
and re-running the pass with the same seen sets flips nothing. -/
theorem C3_mark_broken_amended (dirs : List DirRow) (files : List FileRow)
    (chat minId : Int) (seenD seenF : List Int) (hmin : 0 < minId) :
    (∀ r ∈ (markBrokenDirs dirs minId seenD).1, ∀ m, r.tg_msg_id = some m →
      minId ≤ m → (r.is_broken = true ↔ ¬ m ∈ seenD)) ∧
    (∀ f ∈ (markBrokenFiles files chat minId seenF).1, f.tg_chat_id = chat →
      minId ≤ f.tg_msg_id → (f.is_broken = true ↔ ¬ f.tg_msg_id ∈ seenF)) ∧
    ((markBrokenDirs dirs minId seenD).1.map (fun r => r.id) =
      dirs.map (fun r => r.id)) ∧
    ((markBrokenFiles files chat minId seenF).1.map (fun f => f.id) =
      files.map (fun f => f.id)) ∧
    (markBrokenDirs (markBrokenDirs dirs minId seenD).1 minId seenD =
      ((markBrokenDirs dirs minId seenD).1, 0, 0)) ∧
    (markBrokenFiles (markBrokenFiles files chat minId seenF).1 chat minId seenF =
      ((markBrokenFiles files chat minId seenF).1, 0, 0)) := by
  refine ⟨?_, ?_, ?_, ?_, ?_, ?_⟩
  · intro r hr m hm hge
    rw [show (markBrokenDirs dirs minId seenD).1 = dirs.map (markDirRow minId seenD) from rfl,
      List.mem_map] at hr
    obtain ⟨r0, hr0, heq⟩ := hr
    cases h0 : r0.tg_msg_id with
    | none =>
        simp only [markDirRow, h0] at heq
        rw [← heq] at hm
        rw [h0] at hm
        cases hm
    | some m0 =>
        simp only [markDirRow, h0] at heq
        by_cases hcond : minId ≤ m0 ∧ 0 < m0
        · rw [if_pos hcond] at heq
          have hb : r.is_broken = !(seenD.contains m0) := by rw [← heq]
          have hmsg : r.tg_msg_id = some m0 := by rw [← heq]
          rw [hmsg] at hm
          injection hm with hmm
          subst hmm
          rw [hb, Bool.not_eq_true']
          constructor
          · intro hc hmem
            rw [(contains_mem_int seenD m0).mpr hmem] at hc
            cases hc
          · intro hmem
            by_cases hc : seenD.contains m0 = true
            · exact absurd ((contains_mem_int seenD m0).mp hc) hmem
            · simpa using hc
        · rw [if_neg hcond] at heq
          subst heq
          rw [h0] at hm
          injection hm with hmm
          subst hmm
          exact absurd ⟨hge, by omega⟩ hcond
  · intro f hf hchat hge
    rw [show (markBrokenFiles files chat minId seenF).1 =
      files.map (markFileRow chat minId seenF) from rfl, List.mem_map] at hf
    obtain ⟨f0, hf0, heq⟩ := hf
    unfold markFileRow at heq
    by_cases hcond : f0.tg_chat_id = chat ∧ minId ≤ f0.tg_msg_id ∧ 0 < f0.tg_msg_id
    · rw [if_pos hcond] at heq
      have hb : f.is_broken = !(seenF.contains f0.tg_msg_id) := by rw [← heq]
      have hmsg : f.tg_msg_id = f0.tg_msg_id := by rw [← heq]
      rw [hmsg, hb, Bool.not_eq_true']
      constructor
      · intro hc hmem
        rw [(contains_mem_int seenF f0.tg_msg_id).mpr hmem] at hc
        cases hc
      · intro hmem
        by_cases hc : seenF.contains f0.tg_msg_id = true
        · exact absurd ((contains_mem_int seenF f0.tg_msg_id).mp hc) hmem
        · simpa using hc
    · rw [if_neg hcond] at heq
      subst heq
      exact absurd ⟨hchat, hge, by omega⟩ hcond
  · exact map_pointwise_congr dirs (markDirRow minId seenD) (fun r => r.id)
      (markDirRow_id minId seenD)
  · exact map_pointwise_congr files (markFileRow chat minId seenF) (fun f => f.id)
      (markFileRow_id chat minId seenF)
  · unfold markBrokenDirs
    refine congrArg₂ Prod.mk ?_ (congrArg₂ Prod.mk ?_ ?_)
    · exact map_idem_of_pointwise dirs (markDirRow minId seenD)
        (markDirRow_idem minId seenD)
    · rw [filter_map_all_false dirs (markDirRow minId seenD) _
        (fun r => (markDirRow_no_flip minId seenD r).1)]
      rfl
    · rw [filter_map_all_false dirs (markDirRow minId seenD) _
        (fun r => (markDirRow_no_flip minId seenD r).2)]
      rfl
  · unfold markBrokenFiles
    refine congrArg₂ Prod.mk ?_ (congrArg₂ Prod.mk ?_ ?_)
    · exact map_idem_of_pointwise files (markFileRow chat minId seenF)
        (markFileRow_idem chat minId seenF)
    · rw [filter_map_all_false files (markFileRow chat minId seenF) _
        (fun f => (markFileRow_no_flip chat minId seenF f).1)]
      rfl
    · rw [filter_map_all_false files (markFileRow chat minId seenF) _
        (fun f => (markFileRow_no_flip chat minId seenF f).2)]
      rfl

/-- The file `mark_broken_files` never looks at: backed by chat 2 while the
storage chat is 1, message id 5 inside the window. -/
def c3File : FileRow :=
  { id := ['g'], dir_id := ['B'], name := ['x'], size := 1, hash := ['h'], tg_chat_id := 2, tg_msg_id := 5, created_at := 0, is_broken := false }

/-- Claim C3 as stated fails: the file pass additionally filters on
`tg_chat_id = storage_chat` (reconcile.rs:195), so a file row backed by a
different chat with message id ≥ the window minimum and absent from the
seen-files set is NOT flagged broken. -/
theorem C3_mark_broken_counterexample :
    ¬ (∀ f ∈ (markBrokenFiles [c3File] 1 5 []).1,
        5 ≤ f.tg_msg_id → ¬ f.tg_msg_id ∈ ([] : List Int) →
          f.is_broken = true) := by
  decide

def c3DirA : DirRow :=
  { id := ['A'], parent_id := none, name := ['a'], tg_msg_id := some 4, updated_at := 0, is_broken := false }

def c3DirB : DirRow :=
  { id := ['B'], parent_id := some ['A'], name := ['b'], tg_msg_id := some 9, updated_at := 0, is_broken := false }

def c3FileW : FileRow :=
  { id := ['f'], dir_id := ['A'], name := ['n'], size := 1, hash := ['h'], tg_chat_id := 1, tg_msg_id := 6, created_at := 0, is_broken := true }

/-- Witness for C3: re-running the directory pass over the already-marked
table with the same window and seen set flips nothing. -/
theorem C3_mark_broken_amended_witness :
    markBrokenDirs (markBrokenDirs [c3DirA, c3DirB] 3 [4]).1 3 [4] =
      ((markBrokenDirs [c3DirA, c3DirB] 3 [4]).1, 0, 0) :=
  (C3_mark_broken_amended [c3DirA, c3DirB] [c3FileW] 1 3 [4] [6] (by decide)).2.2.2.2.1

/-- `files.rs` lines 216-224: look up the file row by primary key. -/
def findFileById (files : List FileRow) (fid : Str) : Option FileRow :=
  files.find? (fun f => decide (f.id = fid))

/-- Transport responses consumed by one `move_file` run: the first
`edit_message_caption`, the `find_file_message` outcome (that helper never
propagates search errors), the retry `edit_message_caption`, the
`send_file_from_message` resend, `copy_messages`, and the
`edit_message_caption` on the copy. -/
structure MoveFileOracle where
  edit1 : Except Str Unit
  searchFound : Option (Int × Int)
  edit2 : Except Str Unit
  resend : Except Str (Int × Int)
  copyRes : Except Str (List (Option Int))
  editAfterCopy : Except Str Unit

/-- `UPDATE files SET tg_chat_id = ?, tg_msg_id = ?, is_broken = 0 WHERE id = ?`
(`files.rs` lines 272-278). -/
def moveSetLoc (files : List FileRow) (fid : Str) (chatv msgv : Int) :
    List FileRow :=
  files.map (fun f => if f.id = fid then { f with tg_chat_id := chatv, tg_msg_id := msgv, is_broken := false } else f)

/-- `UPDATE files SET dir_id = ?, tg_chat_id = ?, tg_msg_id = ?, is_broken = 0
WHERE id = ?` (`files.rs` lines 248-254 and the later copies). -/
def moveSetAll (files : List FileRow) (fid newDir : Str) (chatv msgv : Int) :
    List FileRow :=
  files.map (fun f => if f.id = fid then { f with dir_id := newDir, tg_chat_id := chatv, tg_msg_id := msgv, is_broken := false } else f)

def errMoveDirNotFound : Str := "Папка не найдена".toList

def errFileNotFound : Str := "Файл не найден".toList

def errCopyPrefix : Str := "Не удалось скопировать файл для обновления подписи: ".toList

def errNoCopyIdBase : Str := "TDLib не вернул id скопированного сообщения.".toList

def errProtMaybe : Str := " Возможно, в канале включена защита контента.".toList

def errEditDetail (e : Str) : Str := " Ошибка редактирования подписи: ".toList ++ (e ++ ['.'])

def errResendDetail (e : Str) : Str := " Ошибка переотправки: ".toList ++ (e ++ ['.'])

def errEditAfterCopyMsg : Str := "Не удалось обновить подпись файла после копирования".toList

/-- The error built at `files.rs` lines 327-338 when `copy_messages`
succeeded but yielded no new message id. -/
def copyNoIdErr (editErr resendErr : Option Str) : Str :=
  errNoCopyIdBase ++
    (match editErr with | some e => errEditDetail e | none => []) ++
    (match resendErr with | some e => errResendDetail e | none => []) ++
    errProtMaybe

/-- `ids.into_iter().next().flatten()` (`files.rs` lines 324-326). -/
def headFlatten : List (Option Int) → Option Int
  | [] => none
  | x :: _ => x

/-- `move_file` from the resend fallback on (`files.rs` lines 296-361):
`chatv`/`msgv` are the current `msg_chat_id`/`msg_id`, `editErr` the last
caption-edit failure recorded in `edit_error`.  On reaching this point
`resend_error` is always populated by the resend failure. -/
def moveFilePost (files : List FileRow) (fid newDir : Str) (chatv _msgv : Int)
    (editErr : Option Str) (o : MoveFileOracle) : Except Str (List FileRow) :=
  match o.resend with
  | .ok (uc, um) => .ok (moveSetAll files fid newDir uc um)
  | .error e3 =>
      match o.copyRes with
      | .error e4 => .error (errCopyPrefix ++ e4)
      | .ok ids =>
          match headFlatten ids with
          | none => .error (copyNoIdErr editErr (some e3))
          | some nm =>
              match o.editAfterCopy with
              | .error _ => .error errEditAfterCopyMsg
              | .ok _ => .ok (moveSetAll files fid newDir chatv nm)

/-- `move_file` lines 268-294: the `find_file_message` re-resolve and retry
edit; `e1` is the first edit failure already stored in `edit_error`. -/
def moveFileSearch (files : List FileRow) (fid newDir : Str)
    (msgChat msgId : Int) (e1 : Str) (o : MoveFileOracle) :
    Except Str (List FileRow) :=
  match o.searchFound with
  | some (fc, fm) =>
      let files1 := if fc = msgChat ∧ fm = msgId then files
        else moveSetLoc files fid fc fm
      match o.edit2 with
      | .ok _ => .ok (moveSetAll files1 fid newDir fc fm)
      | .error e2 => moveFilePost files1 fid newDir fc fm (some e2) o
  | none => moveFilePost files fid newDir msgChat msgId (some e1) o

/-- `files.rs` lines 209-361 (`move_file`): validation, the in-place caption
edit, then the fallback chain.  Transport outcomes come from the oracle; the
result is the error returned or the updated files table. -/
def move_file_model (files : List FileRow) (dirs : List DirRow)
    ( _storageChat : Int) (fid newDir : Str) (o : MoveFileOracle) :
    Except Str (List FileRow) :=
  if dirExists dirs newDir = true then
    match findFileById files fid with
    | none => .error errFileNotFound
    | some row =>
        if row.dir_id = newDir then .ok files
        else
          match o.edit1 with
          | .ok _ => .ok (moveSetAll files fid newDir row.tg_chat_id row.tg_msg_id)
          | .error e1 => moveFileSearch files fid newDir row.tg_chat_id row.tg_msg_id e1 o
  else .error errMoveDirNotFound

/-- The caption-edit failure reason held in `edit_error` when the copy
fallback runs: the retry edit's reason if `find_file_message` located the
message, the first edit's reason otherwise (`None` only if the retry edit
succeeded, in which case `move_file` already returned). -/
def lastEditErr (e1 : Str) (o : MoveFileOracle) : Option Str :=
  match o.searchFound with
  | none => some e1
  | some _ => match o.edit2 with | .error e2 => some e2 | .ok _ => none

theorem isPre_refl (s : Str) : isPre s s = true := by
  induction s with
  | nil => rfl
  | cons a l ih => simp [isPre, ih]

theorem containsSub_of_isPre (p s : Str) (h : isPre p s = true) :
    containsSub p s = true := by
  cases s with
  | nil =>
      cases p with
      | nil => rfl
      | cons a l => simp [isPre] at h
  | cons c rest =>
      rw [containsSub]
      simp [h]

def c9Dirs : List DirRow :=
  [{ id := ['D'], parent_id := none, name := ['d'], tg_msg_id := some 1, updated_at := 0, is_broken := false }]

def c9File : FileRow :=
  { id := ['F'], dir_id := ['C'], name := ['n'], size := 1, hash := ['h'], tg_chat_id := 1, tg_msg_id := 10, created_at := 0, is_broken := false }

/-- Every fallback step fails, the last of them because `copy_messages`
itself errors. -/
def c9FailAll : MoveFileOracle :=
  { edit1 := .error ['E','1'], searchFound := none, edit2 := .error ['E','2'], resend := .error ['E','3'], copyRes := .error ['E','4'], editAfterCopy := .error ['E','5'] }

/-- Claim C9 as stated fails: when every step of the chain fails and the
failing last step is `copy_messages` itself, the returned error is built by
`map_err` from the copy error alone (`files.rs` line 322) — it contains
neither the caption-edit reason `E1` nor the resend reason `E3`. -/
theorem C9_fallback_counterexample :
    move_file_model [c9File] c9Dirs 1 ['F'] ['D'] c9FailAll =
      .error (errCopyPrefix ++ ['E','4']) ∧
    containsSub ['E','1'] (errCopyPrefix ++ ['E','4']) = false ∧
    containsSub ['E','3'] (errCopyPrefix ++ ['E','4']) = false := by
  decide

/-- Claim C9 (amended): the concatenated error arises only on the
copy-returned-no-id path: if the first caption edit fails, the recorded
edit failure is `eE` (the retry's reason if a message was re-resolved, else
the first edit's), the resend fails with `e3`, and `copy_messages` succeeds
but yields no first message id, then move_file returns the single error
`copyNoIdErr` and that text contains both the caption-edit failure reason
and the resend failure reason.  (When instead `copy_messages` errors, or the
edit after a successful copy errors, the prior reasons are dropped — see the
counterexample.) -/
theorem C9_fallback_amended (files : List FileRow) (dirs : List DirRow)
    (storageChat : Int) (fid newDir : Str) (o : MoveFileOracle) (row : FileRow)
    (e1 eE e3 : Str) (ids : List (Option Int))
    (hdir : dirExists dirs newDir = true)
    (hrow : findFileById files fid = some row)
    (hne : ¬ row.dir_id = newDir)
    (h1 : o.edit1 = .error e1)
    (hE : lastEditErr e1 o = some eE)
    (h3 : o.resend = .error e3)
    (hc : o.copyRes = .ok ids)
    (hids : headFlatten ids = none) :
    move_file_model files dirs storageChat fid newDir o =
      .error (copyNoIdErr (some eE) (some e3)) ∧
    containsSub eE (copyNoIdErr (some eE) (some e3)) = true ∧
    containsSub e3 (copyNoIdErr (some eE) (some e3)) = true := by
  refine ⟨?_, ?_, ?_⟩
  · simp only [move_file_model, hdir, if_pos, hrow, hne, if_neg, h1]
    cases hs : o.searchFound with
    | none =>
        simp only [lastEditErr, hs] at hE
        injection hE with he
        subst he
        simp only [moveFileSearch, hs, moveFilePost, h3, hc, hids]
        rw [if_neg not_false]
    | some pr =>
        obtain ⟨fc, fm⟩ := pr
        cases h2 : o.edit2 with
        | ok u => simp [lastEditErr, hs, h2] at hE
        | error e2 =>
            simp only [lastEditErr, hs, h2] at hE
            injection hE with he
            subst he
            simp only [moveFileSearch, hs, h2, moveFilePost, h3, hc, hids]
            rw [if_neg not_false]
  · simp only [copyNoIdErr, errEditDetail, errResendDetail, List.append_assoc]
    exact containsSub_append_r _ _ _ (containsSub_append_r _ _ _
      (containsSub_of_isPre _ _ (isPre_append _ _ _ (isPre_refl eE))))
  · simp only [copyNoIdErr, errEditDetail, errResendDetail, List.append_assoc]
    exact containsSub_append_r _ _ _ (containsSub_append_r _ _ _
      (containsSub_append_r _ _ _ (containsSub_append_r _ _ _
        (containsSub_append_r _ _ _
          (containsSub_of_isPre _ _ (isPre_append _ _ _ (isPre_refl e3)))))))

/-- Both caption edits fail, the resend fails, and the copy succeeds but
returns `[none]`. -/
def c9wOracle : MoveFileOracle :=
  { edit1 := .error ['E','1'], searchFound := some (2, 11), edit2 := .error ['E','2'], resend := .error ['E','3'], copyRes := .ok [none], editAfterCopy := .ok () }

/-- Witness for C9: on the no-copied-id path the single returned error
carries both the retry-edit reason `E2` and the resend reason `E3`. -/
theorem C9_fallback_amended_witness :
    move_file_model [c9File] c9Dirs 1 ['F'] ['D'] c9wOracle =
      .error (copyNoIdErr (some ['E','2']) (some ['E','3'])) ∧
    containsSub ['E','2'] (copyNoIdErr (some ['E','2']) (some ['E','3'])) = true ∧
    containsSub ['E','3'] (copyNoIdErr (some ['E','2']) (some ['E','3'])) = true :=
  C9_fallback_amended [c9File] c9Dirs 1 ['F'] ['D'] c9wOracle c9File
    ['E','1'] ['E','2'] ['E','3'] [none]
    (by decide) (by rfl) (by decide) (by rfl) (by rfl) (by rfl) (by rfl) (by rfl)
